import Mathlib

/-!
Verification development for the TabFocus background engine.

The definitions below are a shallow embedding of the TypeScript sources:
  * `src/types.ts`      — data model (`Tab`, `TabGroup`, `Session`, `Settings`)
  * `src/lib/storage.ts`— the persisted-store wrapper (`storage.*`)
  * `src/lib/utils.ts`  — `normalizeUrl`, `getColorFromDomainHash`, …
  * `src/background/…`  — the service worker (`getTabGroups`,
    `hideOtherGroups`, `showAllGroups`, `autoGroupByDomain`,
    `checkAutoGroupByDomain`, `suspendTab`, `unsuspendTab`,
    `checkIdleTabs`, `saveSession`, `findDuplicates`, `handleMessage`)
  * `src/popup/popup.ts`— the popup-side guard on session names

Browser/provider state (tabs, tab groups, `chrome.storage.local`) is made
explicit as a `World` record, and each asynchronous Chrome call becomes a
pure state transformation on it.  JavaScript `string | undefined` fields
are modelled as `String` with `""` standing for `undefined` (so the
frequent `x || 'fallback'` idiom becomes `jsOr`).
-/

namespace TabFocus

/-- `TabGroupColor` from `src/types.ts`: the 8 Chrome tab-group colors. -/
inductive TabGroupColor where
  | grey | blue | red | yellow | green | pink | purple | cyan
deriving DecidableEq, Repr

/-- JavaScript `a || b` on strings where `""` stands for `undefined`
(both are falsy, so the fallback is taken exactly when `a = ""`). -/
def jsOr (a b : String) : String := if a = "" then b else a

/-- `Tab` from `src/types.ts` (the snapshot's read-only copy of a tab).
The optional `pinned?`/`active?` booleans are modelled as `Bool`
(`undefined` and `false` are indistinguishable to all the code below,
which only ever tests them for truthiness). -/
structure Tab where
  id : Nat
  url : String
  title : String
  favIconUrl : String
  suspended : Bool
  pinned : Bool
  active : Bool
deriving DecidableEq, Repr

/-- A provider-side tab as returned by `chrome.tabs.query`:
`groupId` is Chrome's group id, `-1` (`TAB_GROUP_ID_NONE`) when ungrouped. -/
structure ChromeTab where
  id : Nat
  url : String
  title : String
  favIconUrl : String
  pinned : Bool
  active : Bool
  groupId : Int
deriving DecidableEq, Repr

/-- A provider-side group as returned by `chrome.tabGroups.query`. -/
structure ChromeGroup where
  id : Int
  title : String
  color : TabGroupColor
  collapsed : Bool
deriving DecidableEq, Repr

/-- `TabGroup` from `src/types.ts`: the snapshot's group model;
`chromeGroupId = -1` marks the synthetic ungrouped bucket. -/
structure TabGroup where
  id : String
  chromeGroupId : Int
  name : String
  color : TabGroupColor
  tabs : List Tab
  collapsed : Bool
  createdAt : Nat
deriving DecidableEq, Repr

/-- `Session` from `src/types.ts`. -/
structure Session where
  id : String
  name : String
  groups : List TabGroup
  createdAt : Nat
  tabCount : Nat
deriving DecidableEq, Repr

/-- `Settings` from `src/types.ts`.  The declared interface has no
`autoGroupThreshold` field, but both the options page and
`checkAutoGroupByDomain` read/write it at runtime (`settings.autoGroupThreshold
|| 3`), so it is modelled as an `Option Nat` (`none` = absent). -/
structure Settings where
  viewOneGroupAtATime : Bool
  autoSaveEnabled : Bool
  autoSaveInterval : Nat
  autoGroupByDomain : Bool
  suspensionTimeout : Nat
  suspensionWhitelist : List String
  showTabCountBadge : Bool
  maxSessions : Nat
  showUngroupedTabs : Bool
  autoGroupThreshold : Option Nat
deriving DecidableEq, Repr

/-- `DEFAULT_SETTINGS` from `src/types.ts`. -/
def DEFAULT_SETTINGS : Settings :=
  { viewOneGroupAtATime := true
    autoSaveEnabled := true
    autoSaveInterval := 30
    autoGroupByDomain := false
    suspensionTimeout := 30
    suspensionWhitelist := []
    showTabCountBadge := true
    maxSessions := 20
    showUngroupedTabs := true
    autoGroupThreshold := none }

/-- The threshold actually used by `checkAutoGroupByDomain`:
`settings.autoGroupThreshold || 3` (absent *or zero* falls back to 3). -/
def effectiveThreshold (s : Settings) : Nat :=
  match s.autoGroupThreshold with
  | none => 3
  | some n => if n = 0 then 3 else n

/-- `StorageData` from `src/types.ts`: the persisted key/value layout. -/
structure StorageData where
  groups : List TabGroup
  sessions : List Session
  settings : Settings
  activeGroupId : Option String
  lastSaveTime : Nat
deriving DecidableEq, Repr

/- ------------------------------------------------------------------
String helpers (kernel-reducible models of the JS string operations).
------------------------------------------------------------------ -/

/-- Split a character list at the first character satisfying `p`:
returns the part before it and the rest starting with the delimiter. -/
def splitAtFirst (p : Char → Bool) : List Char → List Char × List Char
  | [] => ([], [])
  | c :: cs =>
    if p c then ([], c :: cs)
    else
      let r := splitAtFirst p cs
      (c :: r.1, r.2)

/-- Split a character list at the first occurrence of the (non-empty)
separator `sep`; `none` when `sep` does not occur. -/
def splitFirstOnSub (sep : List Char) : List Char → Option (List Char × List Char)
  | [] => none
  | c :: cs =>
    if sep.isPrefixOf (c :: cs) then some ([], (c :: cs).drop sep.length)
    else
      match splitFirstOnSub sep cs with
      | none => none
      | some (pre, post) => some (c :: pre, post)

/-- Everything after the last occurrence of `ch`, or the whole list when
`ch` is absent (models `s.split(sep).pop()` / `splitOn … |>.getLast!`). -/
def afterLastChar (ch : Char) : List Char → List Char
  | [] => []
  | c :: cs =>
    if cs.contains ch then afterLastChar ch cs
    else if c = ch then cs
    else c :: cs

/-- ASCII lowercasing of one character (the only case change URL parsing
performs on scheme/host). -/
def asciiLowerChar (c : Char) : Char :=
  if 'A' ≤ c && c ≤ 'Z' then Char.ofNat (c.toNat + 32) else c

/-- ASCII lowercasing of a string. -/
def asciiLower (s : String) : String := String.mk (s.data.map asciiLowerChar)

/-- JS `str.startsWith(pre)`. -/
def jsStartsWith (s pre : String) : Bool := pre.data.isPrefixOf s.data

/-- Does `sub` occur as a contiguous sublist of `l`? -/
def listIsInfix (sub : List Char) : List Char → Bool
  | [] => sub.isEmpty
  | c :: cs => sub.isPrefixOf (c :: cs) || listIsInfix sub cs

/-- JS `str.includes(sub)` (substring test). -/
def jsIncludes (s sub : String) : Bool := listIsInfix sub.data s.data

/-- JS `str.trim()`: strip leading and trailing whitespace. -/
def jsTrim (s : String) : String :=
  String.mk (((s.data.dropWhile Char.isWhitespace).reverse.dropWhile
    Char.isWhitespace).reverse)

/- ------------------------------------------------------------------
URL model.
------------------------------------------------------------------ -/

/-- The components the code reads off a parsed `URL` object. -/
structure URLParts where
  protocol : String
  host : String
  hostname : String
  pathname : String
  search : String
deriving DecidableEq, Repr

/-- Is `s` a valid URL scheme (ASCII letter, then letters/digits/`+`/`-`/`.`)? -/
def validScheme (s : String) : Bool :=
  match s.data with
  | [] => false
  | c :: cs => c.isAlpha && cs.all (fun d => d.isAlphanum || d = '+' || d = '-' || d = '.')

/-- Model of the WHATWG URL parser (the platform `new URL(...)`), restricted
to absolute URLs of the shape `scheme://authority[/path][?query][#fragment]`
with a non-empty authority and no default-port elision; `none` models the
constructor throwing.  As in the platform, scheme and host are lowercased,
an empty path serializes as `"/"`, and `search` is `""` or `"?" ++ query`.
This covers every URL shape the repository's code paths distinguish. -/
def parseURL (s : String) : Option URLParts :=
  match splitFirstOnSub [':', '/', '/'] s.data with
  | none => none
  | some (schemeChars, remainder) =>
    let scheme := String.mk schemeChars
    if !validScheme scheme then none
    else
      let (authChars, afterAuth) :=
        splitAtFirst (fun c => c = '/' || c = '?' || c = '#') remainder
      if authChars.isEmpty then none
      else
        let hostPart := afterLastChar '@' authChars
        let host := asciiLower (String.mk hostPart)
        let hostname := asciiLower (String.mk (splitAtFirst (fun c => c = ':') hostPart).1)
        if hostname = "" then none
        else
          let (beforeFrag, _) := splitAtFirst (fun c => c = '#') afterAuth
          let (pathChars, queryPart) := splitAtFirst (fun c => c = '?') beforeFrag
          let pathname := if pathChars.isEmpty then "/" else String.mk pathChars
          let search :=
            match queryPart with
            | [] => ""
            | _ :: qs => if qs.isEmpty then "" else String.mk ('?' :: qs)
          some { protocol := asciiLower scheme ++ ":"
                 host := host
                 hostname := hostname
                 pathname := pathname
                 search := search }

/-- `url.hostname.replace(/^www\./, '')` — strip one leading `www.` label. -/
def stripWww (h : String) : String :=
  if jsStartsWith h "www." then String.mk (h.data.drop 4) else h

/-- JS `str.replace(/\/$/, '')` — drop a single trailing slash. -/
def stripTrailingSlash (s : String) : String :=
  if s.data.getLast? = some '/' then String.mk (s.data.dropLast) else s

/-- `normalizeUrl` from `src/lib/utils.ts`: scheme+host+path, keeping the
query string unless `ignoreQueryParams`, then dropping a trailing slash;
unparseable URLs are returned unchanged. -/
def normalizeUrl (url : String) (ignoreQueryParams : Bool) : String :=
  match parseURL url with
  | none => url
  | some p =>
    let normalized := p.protocol ++ "//" ++ p.host ++ p.pathname
    let normalized :=
      if !ignoreQueryParams && p.search != "" then normalized ++ p.search
      else normalized
    stripTrailingSlash normalized

example : parseURL "https://a.com/x?x=1" =
    some { protocol := "https:", host := "a.com", hostname := "a.com",
           pathname := "/x", search := "?x=1" } := by decide

example : normalizeUrl "https://a.com/x?x=1" true = "https://a.com/x" := by decide
example : normalizeUrl "https://a.com/x?x=1" false = "https://a.com/x?x=1" := by decide
example : normalizeUrl "https://b.com" false = "https://b.com" := by decide
example : (parseURL "chrome://settings").map URLParts.hostname = some "settings" := by decide
example : jsIncludes "abc/suspended/suspended.html?x" "suspended/suspended.html" = true := by
  decide

/- ------------------------------------------------------------------
Snapshot Builder (`getTabGroups` in the service worker).
------------------------------------------------------------------ -/

/-- The tab test in `getTabGroups`: `tab.groupId && tab.groupId !==
chrome.tabGroups.TAB_GROUP_ID_NONE` is *false* (tab counts as ungrouped)
when `groupId` is `0` (falsy) or `-1` (`TAB_GROUP_ID_NONE`). -/
def isUngroupedTab (t : ChromeTab) : Bool := t.groupId = 0 || t.groupId = -1

/-- The `Tab` record `getTabGroups` builds from a provider tab
(`url: tab.url || ''`, `title: tab.title || 'Untitled'`, …). -/
def toTabData (t : ChromeTab) : Tab :=
  { id := t.id
    url := t.url
    title := jsOr t.title "Untitled"
    favIconUrl := t.favIconUrl
    suspended := false
    pinned := t.pinned
    active := t.active }

/-- The tabs `getTabGroups` collects for Chrome group `gid`.  The source
accumulates them in a `Map<number, Tab[]>` keyed by `tab.groupId` and reads
the bucket back per group; since pushes preserve tab order, the bucket for
`gid` is exactly the grouped tabs whose `groupId` equals `gid`, in order. -/
def groupBucket (tabs : List ChromeTab) (gid : Int) : List Tab :=
  (tabs.filter (fun t => !isUngroupedTab t && t.groupId = gid)).map toTabData

/-- The ungrouped-tab list `getTabGroups` collects. -/
def ungroupedBucket (tabs : List ChromeTab) : List Tab :=
  (tabs.filter (fun t => isUngroupedTab t)).map toTabData

/-- The `TabGroup` emitted for one provider group
(`id: "chrome-" + id`, `name: title || 'Unnamed Group'`, `createdAt: Date.now()`). -/
def mkRealGroup (tabs : List ChromeTab) (now : Nat) (g : ChromeGroup) : TabGroup :=
  { id := "chrome-" ++ toString g.id
    chromeGroupId := g.id
    name := jsOr g.title "Unnamed Group"
    color := g.color
    tabs := groupBucket tabs g.id
    collapsed := g.collapsed
    createdAt := now }

/-- The synthetic ungrouped pseudo-group appended by `getTabGroups`. -/
def mkUngroupedGroup (tabs : List ChromeTab) : TabGroup :=
  { id := "ungrouped"
    chromeGroupId := -1
    name := "Ungrouped"
    color := TabGroupColor.grey
    tabs := ungroupedBucket tabs
    collapsed := false
    createdAt := 0 }

/-- `getTabGroups` from the service worker: one `TabGroup` per provider
group in provider order, then the synthetic `"ungrouped"` bucket, only when
non-empty.  `now` stands for `Date.now()`. -/
def getTabGroups (tabs : List ChromeTab) (chromeGroups : List ChromeGroup)
    (now : Nat) : List TabGroup :=
  chromeGroups.map (mkRealGroup tabs now) ++
    (if (ungroupedBucket tabs).isEmpty then [] else [mkUngroupedGroup tabs])

/- ------------------------------------------------------------------
World: explicit provider + store state, and the Chrome calls as pure
state transformations.
------------------------------------------------------------------ -/

/-- The provider (current window's tabs and groups, with a fresh-id counter
for `chrome.tabs.group`) together with the persisted store. -/
structure World where
  tabs : List ChromeTab
  chromeGroups : List ChromeGroup
  nextGroupId : Int
  store : StorageData
deriving DecidableEq, Repr

/-- `chrome.tabs.update(tabId, { active })`. -/
def updateTabActive (w : World) (tabId : Nat) (b : Bool) : World :=
  { w with tabs := w.tabs.map (fun t => if t.id = tabId then { t with active := b } else t) }

/-- `chrome.tabs.update(tabId, { url })`. -/
def updateTabUrl (w : World) (tabId : Nat) (url : String) : World :=
  { w with tabs := w.tabs.map (fun t => if t.id = tabId then { t with url := url } else t) }

/-- `chrome.tabGroups.update(groupId, { collapsed })`. -/
def setGroupCollapsed (w : World) (gid : Int) (b : Bool) : World :=
  { w with chromeGroups :=
      w.chromeGroups.map (fun g => if g.id = gid then { g with collapsed := b } else g) }

/-- `chrome.tabs.query({ currentWindow: true, groupId: TAB_GROUP_ID_NONE })`. -/
def queryUngrouped (w : World) : List ChromeTab :=
  w.tabs.filter (fun t => t.groupId = -1)

/-- `chrome.tabs.group({ tabIds })` followed by
`chrome.tabGroups.update(groupId, { title, color })`: moves the tabs into a
fresh provider group and names/colors it. -/
def createGroupInWorld (w : World) (tabIds : List Nat) (title : String)
    (color : TabGroupColor) : World :=
  let gid := w.nextGroupId
  { w with
    tabs := w.tabs.map (fun t => if tabIds.contains t.id then { t with groupId := gid } else t)
    chromeGroups := w.chromeGroups ++ [{ id := gid, title := title, color := color, collapsed := false }]
    nextGroupId := gid + 1 }

/-- The service worker's in-memory (non-persisted) state. -/
structure SuspInfo where
  originalUrl : String
  title : String
  favicon : String
deriving DecidableEq, Repr

/-- Volatile background state: `activeGroupId`, `hiddenTabIds`,
`suspendedTabs` and `tabLastActiveTime` module-level variables. -/
structure BgState where
  activeGroupId : Option String
  hiddenTabIds : List Nat
  suspendedTabs : List (Nat × SuspInfo)
  tabLastActiveTime : List (Nat × Nat)
deriving DecidableEq, Repr

/-- JS `Map.get`. -/
def mapGet {α : Type} (m : List (Nat × α)) (k : Nat) : Option α :=
  (m.find? (fun kv => kv.1 = k)).map Prod.snd

/-- JS `Map.set`: update the existing entry in place, else append. -/
def mapSet {α : Type} (m : List (Nat × α)) (k : Nat) (v : α) : List (Nat × α) :=
  if m.any (fun kv => kv.1 = k) then
    m.map (fun kv => if kv.1 = k then (k, v) else kv)
  else m ++ [(k, v)]

/-- JS `Map.delete`. -/
def mapDelete {α : Type} (m : List (Nat × α)) (k : Nat) : List (Nat × α) :=
  m.filter (fun kv => kv.1 ≠ k)

/- ------------------------------------------------------------------
Focus Controller (`hideOtherGroups` / `showAllGroups`).
------------------------------------------------------------------ -/

/-- Inner loop of `hideOtherGroups` for one non-target group: deactivate
every non-pinned tab and record its id in `hiddenTabIds`. -/
def hideTabsOfGroup (acc : World × List Nat) (g : TabGroup) : World × List Nat :=
  g.tabs.foldl
    (fun acc tb =>
      if tb.pinned then acc
      else (updateTabActive acc.1 tb.id false, acc.2 ++ [tb.id]))
    acc

/-- One iteration of the `for (const group of groups)` loop in
`hideOtherGroups`: the target group and (under `showUngroupedTabs`) the
synthetic bucket are skipped; otherwise its tabs are deactivated/recorded
and, for a real group, the group is collapsed. -/
def focusStep (groupId : String) (settings : Settings) (acc : World × List Nat)
    (g : TabGroup) : World × List Nat :=
  if g.id = groupId then acc
  else if g.id = "ungrouped" && settings.showUngroupedTabs then acc
  else
    let acc := hideTabsOfGroup acc g
    if g.chromeGroupId > 0 then (setGroupCollapsed acc.1 g.chromeGroupId true, acc.2)
    else acc

/-- The mutations `hideOtherGroups` performs once the target group was
found: hide/collapse every other group, expand the target (when real),
activate its first tab, set and persist `activeGroupId`. -/
def focusApply (groupId : String) (groups : List TabGroup) (targetGroup : TabGroup)
    (w : World) (s : BgState) : World × BgState :=
  let settings := w.store.settings
  let acc := groups.foldl (focusStep groupId settings) (w, [])
  let w2 :=
    if targetGroup.chromeGroupId > 0 then
      setGroupCollapsed acc.1 targetGroup.chromeGroupId false
    else acc.1
  let w3 :=
    match targetGroup.tabs with
    | [] => w2
    | tb :: _ => updateTabActive w2 tb.id true
  let w4 := { w3 with store := { w3.store with activeGroupId := some groupId } }
  (w4, { s with activeGroupId := some groupId, hiddenTabIds := acc.2 })

/-- `hideOtherGroups` (the `focus` operation): fresh snapshot, `NotFound`
when the group id is absent (thrown before any mutation), then the
hide/collapse/expand/activate/persist sequence of `focusApply`.
(`updateBadge` only reads state and draws the badge; it is not modelled.) -/
def hideOtherGroups (groupId : String) (now : Nat) (w : World) (s : BgState) :
    Except String (World × BgState) :=
  let groups := getTabGroups w.tabs w.chromeGroups now
  match groups.find? (fun g => g.id = groupId) with
  | none => Except.error "Group not found"
  | some targetGroup => Except.ok (focusApply groupId groups targetGroup w s)

/-- One iteration of the `showAllGroups` loop: expand the group in the
provider when it is a real group. -/
def expandStep (w : World) (g : TabGroup) : World :=
  if g.chromeGroupId > 0 then setGroupCollapsed w g.chromeGroupId false else w

/-- `showAllGroups` (the `unfocus` operation): fresh snapshot, expand every
real group, clear `hiddenTabIds`, clear and persist `activeGroupId`. -/
def showAllGroups (now : Nat) (w : World) (s : BgState) : World × BgState :=
  let groups := getTabGroups w.tabs w.chromeGroups now
  let w1 := groups.foldl expandStep w
  let w2 := { w1 with store := { w1.store with activeGroupId := none } }
  (w2, { s with activeGroupId := none, hiddenTabIds := [] })

/- ------------------------------------------------------------------
Persisted store operations (`src/lib/storage.ts`).
------------------------------------------------------------------ -/

/-- `storage.saveSession`: unshift the new session onto the persisted list,
then truncate the list to `settings.maxSessions` entries. -/
def storeSaveSession (st : StorageData) (s : Session) : StorageData :=
  let sessions := s :: st.sessions
  let sessions :=
    if sessions.length > st.settings.maxSessions then sessions.take st.settings.maxSessions
    else sessions
  { st with sessions := sessions }

/-- `Partial<Settings>` — an update payload; `none` marks an absent key. -/
structure SettingsUpdate where
  viewOneGroupAtATime : Option Bool := none
  autoSaveEnabled : Option Bool := none
  autoSaveInterval : Option Nat := none
  autoGroupByDomain : Option Bool := none
  suspensionTimeout : Option Nat := none
  suspensionWhitelist : Option (List String) := none
  showTabCountBadge : Option Bool := none
  maxSessions : Option Nat := none
  showUngroupedTabs : Option Bool := none
  autoGroupThreshold : Option (Option Nat) := none
deriving DecidableEq, Repr

/-- The JS object spread `{ ...current, ...updates }`: every key present in
`updates` overrides `current`, every absent key is left unchanged. -/
def applySettingsUpdate (c : Settings) (u : SettingsUpdate) : Settings :=
  { viewOneGroupAtATime := u.viewOneGroupAtATime.getD c.viewOneGroupAtATime
    autoSaveEnabled := u.autoSaveEnabled.getD c.autoSaveEnabled
    autoSaveInterval := u.autoSaveInterval.getD c.autoSaveInterval
    autoGroupByDomain := u.autoGroupByDomain.getD c.autoGroupByDomain
    suspensionTimeout := u.suspensionTimeout.getD c.suspensionTimeout
    suspensionWhitelist := u.suspensionWhitelist.getD c.suspensionWhitelist
    showTabCountBadge := u.showTabCountBadge.getD c.showTabCountBadge
    maxSessions := u.maxSessions.getD c.maxSessions
    showUngroupedTabs := u.showUngroupedTabs.getD c.showUngroupedTabs
    autoGroupThreshold := u.autoGroupThreshold.getD c.autoGroupThreshold }

/-- `storage.updateSettings`: read current settings, merge the partial
update over them, persist the merged record, and return it (this is the
operation the `UPDATE_SETTINGS` command invokes and whose result it
reports back). -/
def updateSettingsStore (st : StorageData) (u : SettingsUpdate) :
    StorageData × Settings :=
  let updated := applySettingsUpdate st.settings u
  ({ st with settings := updated }, updated)

/- ------------------------------------------------------------------
Session Manager (`saveSession` and the SAVE_SESSION command).
------------------------------------------------------------------ -/

/-- `saveSession` in the service worker: fresh snapshot, summed tab count,
a generated id (`genId` stands for `generateId()`, `now` for `Date.now()`),
then `storage.saveSession`.  There is no name validation on this path. -/
def bgSaveSession (w : World) (name : String) (now : Nat) (genId : String) :
    World × Session :=
  let groups := getTabGroups w.tabs w.chromeGroups now
  let tabCount := groups.foldl (fun sum g => sum + g.tabs.length) 0
  let session : Session :=
    { id := genId, name := name, groups := groups, createdAt := now, tabCount := tabCount }
  ({ w with store := storeSaveSession w.store session }, session)

/-- Result of a dispatched command (`MessageResponse`). -/
structure SaveSessionResponse where
  success : Bool
  session : Option Session
deriving DecidableEq, Repr

/-- The `SAVE_SESSION` case of `handleMessage`: calls `saveSession(name)`
and answers `{ success: true, data: session }` — for every name. -/
def handleSaveSession (w : World) (name : String) (now : Nat) (genId : String) :
    World × SaveSessionResponse :=
  let (w', session) := bgSaveSession w name now genId
  (w', { success := true, session := some session })

/-- The popup's `saveSession` handler (`src/popup/popup.ts`): trims the
input; when the trimmed name is empty it refocuses the input and returns
*without sending any message*; otherwise it sends `SAVE_SESSION` with the
trimmed name as payload.  Returns the payload sent, `none` when no message
is sent. -/
def popupSaveSessionPayload (input : String) : Option String :=
  let name := jsTrim input
  if name = "" then none else some name

/- ------------------------------------------------------------------
Duplicate Detector (`findDuplicates`).
------------------------------------------------------------------ -/

/-- One `urlMap` insertion in `findDuplicates`: append the tab to the
bucket of key `k`, creating the bucket at the end of the map when absent
(JS `Map` iteration order = insertion order). -/
def pushBucket (m : List (String × List Tab)) (k : String) (t : Tab) :
    List (String × List Tab) :=
  match m with
  | [] => [(k, [t])]
  | (k', ts) :: rest =>
    if k' = k then (k', ts ++ [t]) :: rest
    else (k', ts) :: pushBucket rest k t

/-- The snapshot's tabs in traversal order (groups in snapshot order, tabs
in group order) — the encounter order `findDuplicates` processes. -/
def snapshotTabs (tabs : List ChromeTab) (chromeGroups : List ChromeGroup)
    (now : Nat) : List Tab :=
  ((getTabGroups tabs chromeGroups now).map TabGroup.tabs).flatten

/-- `findDuplicates`: bucket every snapshot tab under its normalized URL,
then retain only buckets holding more than one tab (in map order). -/
def findDuplicates (ignoreQueryParams : Bool) (tabs : List ChromeTab)
    (chromeGroups : List ChromeGroup) (now : Nat) : List (String × List Tab) :=
  let urlMap := (snapshotTabs tabs chromeGroups now).foldl
    (fun m tb => pushBucket m (normalizeUrl tb.url ignoreQueryParams) tb) []
  urlMap.filter (fun kv => kv.2.length > 1)

/- ------------------------------------------------------------------
Domain Clustering Engine (`autoGroupByDomain` / `checkAutoGroupByDomain`)
and the hash-based color assignment (`src/lib/utils.ts`).
------------------------------------------------------------------ -/

/-- One step of the 32-bit string hash in `getColorFromDomainHash`:
`hash = ((hash << 5) - hash) + char; hash = hash & hash` — i.e. the new
hash is congruent to `31·hash + char (mod 2³²)` (tracked here as the
unsigned residue). -/
def hashStep (h c : Nat) : Nat := (31 * h + c) % 4294967296

/-- The full hash of `getColorFromDomainHash` (over `charCodeAt` values;
code points coincide with UTF-16 units on the BMP strings hostnames are). -/
def domainHash (s : String) : Nat := s.data.foldl (fun h c => hashStep h c.toNat) 0

/-- JS `Math.abs` on the signed 32-bit value whose unsigned residue is `h`. -/
def jsAbs32 (h : Nat) : Nat := if h < 2147483648 then h else 4294967296 - h

/-- The 7-color palette `getColorFromDomainHash` draws from (grey excluded). -/
def hashPalette : List TabGroupColor :=
  [TabGroupColor.blue, TabGroupColor.red, TabGroupColor.yellow, TabGroupColor.green,
   TabGroupColor.pink, TabGroupColor.purple, TabGroupColor.cyan]

/-- `getColorFromDomainHash`: hash the domain string, take
`Math.abs(hash) % colors.length`, and index the palette. -/
def getColorFromDomainHash (domain : String) : TabGroupColor :=
  hashPalette.getD (jsAbs32 (domainHash domain) % hashPalette.length) TabGroupColor.grey

/-- `getColorFromFaviconWithFallback`: despite its name it ignores the
favicon entirely and returns the hash color of the domain. -/
def getColorFromFaviconWithFallback (_faviconUrl : String) (domain : String) :
    TabGroupColor :=
  getColorFromDomainHash domain

/-- A `domainMap` entry: the bucket of ungrouped tab ids for one domain,
with the first non-empty favicon seen. -/
structure DomainEntry where
  domain : String
  tabIds : List Nat
  favicon : String
deriving DecidableEq, Repr

/-- One `domainMap` insertion: push the tab id onto the domain's bucket
(created at the end when absent) and keep the first non-empty favicon. -/
def addToDomainMap (m : List DomainEntry) (d : String) (tid : Nat) (fav : String) :
    List DomainEntry :=
  match m with
  | [] => [{ domain := d, tabIds := [tid], favicon := fav }]
  | e :: rest =>
    if e.domain = d then
      { e with tabIds := e.tabIds ++ [tid]
               favicon := if e.favicon = "" && fav != "" then fav else e.favicon } :: rest
    else e :: addToDomainMap rest d tid fav

/-- The bucketing key for one tab, `none` when the tab is skipped: no id /
no url (`!tab.url || !tab.id` — id `0` is falsy), a system scheme when
`skipSystem` (only `checkAutoGroupByDomain` has that test), or an
unparseable URL (the `catch` branch).  Otherwise the tab's hostname with a
leading `www.` stripped. -/
def clusterKey (skipSystem : Bool) (t : ChromeTab) : Option String :=
  if t.url = "" || t.id = 0 then none
  else if skipSystem &&
      (jsStartsWith t.url "chrome://" || jsStartsWith t.url "chrome-extension://") then none
  else
    match parseURL t.url with
    | none => none
    | some p => some (stripWww p.hostname)

/-- The `domainMap` both clustering operations build over the ungrouped
tabs (`skipSystem` is true only for `checkAutoGroupByDomain`). -/
def buildDomainMap (tabs : List ChromeTab) (skipSystem : Bool) : List DomainEntry :=
  tabs.foldl
    (fun m t =>
      match clusterKey skipSystem t with
      | none => m
      | some d => addToDomainMap m d t.id t.favIconUrl)
    []

/-- `autoGroupByDomain` (the explicit "group everything now" sweep): bucket
the ungrouped tabs by domain — with *no* system-scheme exclusion — then
create one group per bucket of ≥ 2 tabs, named after the domain and colored
by the domain hash; returns the number of groups created. -/
def autoGroupByDomain (w : World) : World × Nat :=
  let m := buildDomainMap (queryUngrouped w) false
  m.foldl
    (fun (acc : World × Nat) e =>
      if e.tabIds.length ≥ 2 then
        (createGroupInWorld acc.1 e.tabIds e.domain
          (getColorFromFaviconWithFallback e.favicon e.domain), acc.2 + 1)
      else acc)
    (w, 0)

/-- The `for (const [domain, …] of domainMap)` loop of
`checkAutoGroupByDomain`: skip buckets other than the (truthy) target
domain; group the first remaining bucket that reached the threshold and
`break`. -/
def checkLoop (w : World) (targetDomain : Option String) (threshold : Nat) :
    List DomainEntry → World
  | [] => w
  | e :: rest =>
    if (match targetDomain with
        | some td => td ≠ "" && e.domain ≠ td
        | none => false) then
      checkLoop w targetDomain threshold rest
    else if e.tabIds.length ≥ threshold then
      createGroupInWorld w e.tabIds e.domain
        (getColorFromFaviconWithFallback e.favicon e.domain)
    else checkLoop w targetDomain threshold rest

/-- `checkAutoGroupByDomain(tabUrl?)`: no-op when auto-grouping is
disabled; otherwise bucket the ungrouped tabs (skipping `chrome://` and
`chrome-extension://` pages), resolve the triggering URL to a target
domain (unparseable URLs leave it unset), and run the grouping loop, which
creates at most one group. -/
def checkAutoGroupByDomain (w : World) (tabUrl : Option String) : World :=
  let settings := w.store.settings
  if !settings.autoGroupByDomain then w
  else
    let threshold := effectiveThreshold settings
    let m := buildDomainMap (queryUngrouped w) true
    let targetDomain :=
      match tabUrl with
      | none => none
      | some u =>
        match parseURL u with
        | none => none
        | some p => some (stripWww p.hostname)
    checkLoop w targetDomain threshold m

/- ------------------------------------------------------------------
Suspension Engine (`suspendTab` / `unsuspendTab` / `checkIdleTabs`).
------------------------------------------------------------------ -/

/-- Is `c` in `encodeURIComponent`'s unreserved set
(`A–Z a–z 0–9 - _ . ! ~ * ' ( )`)? -/
def uriUnreserved (c : Char) : Bool :=
  c.isAlphanum || c = '-' || c = '_' || c = '.' || c = '!' || c = '~' ||
    c = '*' || c = Char.ofNat 39 || c = '(' || c = ')'

/-- Hex digit for a nibble. -/
def hexDigit (n : Nat) : Char :=
  if n < 10 then Char.ofNat (48 + n) else Char.ofNat (55 + n % 16)

/-- Model of `encodeURIComponent`: percent-encode every UTF-8 byte outside
the unreserved set. -/
def encodeURIComponent (s : String) : String :=
  String.mk <| s.data.foldr
    (fun c acc =>
      if uriUnreserved c then c :: acc
      else (String.toUTF8 (String.mk [c])).toList.foldr
        (fun b acc => '%' :: hexDigit (b.toNat / 16) :: hexDigit (b.toNat % 16) :: acc)
        acc)
    []

/-- The placeholder URL `suspendTab` navigates to:
`chrome.runtime.getURL('suspended/suspended.html?url=…&title=…&favicon=…')`
(the extension origin is written `chrome-extension://self/` here). -/
def suspendedUrlFor (url title favicon : String) : String :=
  "chrome-extension://self/suspended/suspended.html?url=" ++ encodeURIComponent url ++
    "&title=" ++ encodeURIComponent title ++ "&favicon=" ++ encodeURIComponent favicon

/-- The whitelist test in `suspendTab`: with a non-empty whitelist, parse
the tab URL and suspend nothing whose `www.`-stripped hostname *contains*
a whitelisted substring (unparseable URLs pass the test). -/
def whitelistHit (settings : Settings) (url : String) : Bool :=
  if settings.suspensionWhitelist.isEmpty then false
  else
    match parseURL url with
    | none => false
    | some p => settings.suspensionWhitelist.any
        (fun d => jsIncludes (stripWww p.hostname) d)

/-- The eligibility screen at the top of `suspendTab`: pinned, active,
url-less, system-scheme or already-suspended tabs are skipped. -/
def suspendScreened (t : ChromeTab) : Bool :=
  t.pinned || t.active || t.url = "" ||
    jsStartsWith t.url "chrome://" || jsStartsWith t.url "chrome-extension://" ||
    jsIncludes t.url "suspended/suspended.html"

/-- `suspendTab`: fetch the tab (`chrome.tabs.get` throws when absent and
the dispatcher catches it — nothing is mutated), silently skip screened or
whitelisted tabs, otherwise record `{originalUrl, title, favicon}` under
the tab id and navigate the tab to the placeholder URL. -/
def suspendTab (w : World) (susp : List (Nat × SuspInfo)) (tabId : Nat) :
    World × List (Nat × SuspInfo) :=
  match w.tabs.find? (fun t => t.id = tabId) with
  | none => (w, susp)
  | some tab =>
    if suspendScreened tab then (w, susp)
    else if whitelistHit w.store.settings tab.url then (w, susp)
    else
      let info : SuspInfo :=
        { originalUrl := tab.url, title := jsOr tab.title "Untitled", favicon := tab.favIconUrl }
      (updateTabUrl w tabId
         (suspendedUrlFor tab.url (jsOr tab.title "Untitled") tab.favIconUrl),
       mapSet susp tabId info)

/-- `unsuspendTab`: when a suspension record exists, restore the tab to its
original URL and drop the record.  (`chrome.tabs.update` rejects when the
tab no longer exists, in which case the `delete` is never reached.) -/
def unsuspendTab (w : World) (susp : List (Nat × SuspInfo)) (tabId : Nat) :
    World × List (Nat × SuspInfo) :=
  match mapGet susp tabId with
  | none => (w, susp)
  | some info =>
    if w.tabs.any (fun t => t.id = tabId) then
      (updateTabUrl w tabId info.originalUrl, mapDelete susp tabId)
    else (w, susp)

/-- One iteration of the `checkIdleTabs` loop for the queried tab `t`:
skip id-less tabs, seed a first-seen tab's activity clock to `now`, and
suspend a tab idle past the timeout. -/
def idleStep (timeoutMs now : Nat)
    (acc : World × List (Nat × SuspInfo) × List (Nat × Nat)) (t : ChromeTab) :
    World × List (Nat × SuspInfo) × List (Nat × Nat) :=
  let (w, susp, act) := acc
  if t.id = 0 then (w, susp, act)
  else
    match mapGet act t.id with
    | none => (w, susp, mapSet act t.id now)
    | some lastActive =>
      if now - lastActive > timeoutMs then
        let (w', susp') := suspendTab w susp t.id
        (w', susp', act)
      else (w, susp, act)

/-- `checkIdleTabs` (`sweepIdle`): runs only while `suspensionTimeout > 0`;
walks the current tabs, seeding unseen activity clocks and suspending every
tab idle longer than the timeout. -/
def checkIdleTabs (w : World) (susp : List (Nat × SuspInfo))
    (act : List (Nat × Nat)) (now : Nat) :
    World × List (Nat × SuspInfo) × List (Nat × Nat) :=
  let settings := w.store.settings
  if settings.suspensionTimeout = 0 then (w, susp, act)
  else
    let timeoutMs := settings.suspensionTimeout * 60 * 1000
    w.tabs.foldl (idleStep timeoutMs now) (w, susp, act)

/- ------------------------------------------------------------------
Concrete fixtures used by witnesses and counterexamples.
------------------------------------------------------------------ -/

/-- `DEFAULT_STORAGE_DATA` from `src/lib/storage.ts`. -/
def DEFAULT_STORAGE_DATA : StorageData :=
  { groups := []
    sessions := []
    settings := DEFAULT_SETTINGS
    activeGroupId := none
    lastSaveTime := 0 }

/-- A provider with no tabs and no groups, default store. -/
def emptyWorld : World :=
  { tabs := [], chromeGroups := [], nextGroupId := 1, store := DEFAULT_STORAGE_DATA }

def sessA : Session := { id := "a", name := "A", groups := [], createdAt := 1, tabCount := 0 }

def sessB : Session := { id := "b", name := "B", groups := [], createdAt := 2, tabCount := 0 }

/-- A store whose settings retain only one session. -/
def storeMax1 : StorageData :=
  { groups := []
    sessions := []
    settings := { DEFAULT_SETTINGS with maxSessions := 1 }
    activeGroupId := none
    lastSaveTime := 0 }

/- ------------------------------------------------------------------
C3 — session retention.
------------------------------------------------------------------ -/

theorem storeSaveSession_sessions (st : StorageData) (s : Session) :
    (storeSaveSession st s).sessions = (s :: st.sessions).take st.settings.maxSessions := by
  unfold storeSaveSession
  by_cases h : (s :: st.sessions).length > st.settings.maxSessions
  · simp [h]
  · simp [h, List.take_of_length_le (Nat.le_of_not_lt h)]

theorem storeSaveSession_settings (st : StorageData) (s : Session) :
    (storeSaveSession st s).settings = st.settings := rfl

theorem take_append_take {α : Type} (A B : List α) (m : Nat) :
    (A ++ B.take m).take m = (A ++ B).take m := by
  rw [List.take_append_eq_append_take, List.take_append_eq_append_take, List.take_take,
    Nat.min_eq_left (Nat.sub_le m A.length)]

theorem foldl_storeSaveSession (saves : List Session) :
    ∀ st : StorageData, st.sessions.length ≤ st.settings.maxSessions →
      (saves.foldl storeSaveSession st).sessions =
        (saves.reverse ++ st.sessions).take st.settings.maxSessions := by
  induction saves with
  | nil =>
    intro st h
    simpa using (List.take_of_length_le h).symm
  | cons s rest ih =>
    intro st h
    have hset : (storeSaveSession st s).settings = st.settings := rfl
    have hlen : (storeSaveSession st s).sessions.length ≤
        (storeSaveSession st s).settings.maxSessions := by
      rw [storeSaveSession_sessions, hset, List.length_take]
      exact Nat.min_le_left _ _
    rw [List.foldl_cons, ih _ hlen, hset, storeSaveSession_sessions,
      take_append_take, List.reverse_cons, List.append_assoc]
    rfl

/-- C3: for every `maxSessions ≥ 1`, each `storage.saveSession` prepends
the new session and truncates the list to `maxSessions`; saving
`maxSessions + 1` sessions into an empty store leaves exactly
`maxSessions` entries, most-recently-saved first, the oldest (first-saved)
session evicted. -/
theorem sessionRetention (m : Nat) (hm : 1 ≤ m) (st : StorageData)
    (hmax : st.settings.maxSessions = m) (hinit : st.sessions = [])
    (saves : List Session) (hlen : saves.length = m + 1) :
    (∀ (st' : StorageData) (s : Session),
        (storeSaveSession st' s).sessions =
          (s :: st'.sessions).take st'.settings.maxSessions) ∧
    (saves.foldl storeSaveSession st).sessions = (saves.drop 1).reverse ∧
    ((saves.foldl storeSaveSession st).sessions).length = m := by
  have hfold : (saves.foldl storeSaveSession st).sessions = saves.reverse.take m := by
    have h0 : st.sessions.length ≤ st.settings.maxSessions := by
      rw [hinit, hmax]; exact Nat.zero_le m
    rw [foldl_storeSaveSession saves st h0, hinit, hmax, List.append_nil]
  have hdrop : saves.reverse.take m = (saves.drop 1).reverse := by
    have h1 : saves.length - m = 1 := by omega
    rw [List.take_reverse, h1]
  refine ⟨fun st' s => storeSaveSession_sessions st' s, hfold.trans hdrop, ?_⟩
  rw [hfold, List.length_take, List.length_reverse, hlen]
  omega

theorem sessionRetention_witness :
    ([sessA, sessB].foldl storeSaveSession storeMax1).sessions = [sessB] :=
  (sessionRetention 1 (by decide) storeMax1 rfl rfl [sessA, sessB] rfl).2.1

/- ------------------------------------------------------------------
C9 — deterministic domain→color hashing.
------------------------------------------------------------------ -/

/-- C9: the origin→color assignment is a pure function of the origin
string (32-bit hash reduced mod the palette size); the result is always
one of the 7 non-grey palette colors, never grey, and equal origin
strings always receive equal colors. -/
theorem colorHash_spec (domain : String) :
    getColorFromDomainHash domain ≠ TabGroupColor.grey ∧
    getColorFromDomainHash domain ∈ hashPalette ∧
    ∀ d' : String, domain = d' →
      getColorFromDomainHash domain = getColorFromDomainHash d' := by
  have hlt : jsAbs32 (domainHash domain) % hashPalette.length < 7 :=
    Nat.mod_lt _ (by decide)
  have hdef : getColorFromDomainHash domain =
      hashPalette.getD (jsAbs32 (domainHash domain) % hashPalette.length)
        TabGroupColor.grey := rfl
  have aux : ∀ j : Fin 7,
      hashPalette.getD j.val TabGroupColor.grey ≠ TabGroupColor.grey ∧
      hashPalette.getD j.val TabGroupColor.grey ∈ hashPalette := by decide
  have h := aux ⟨_, hlt⟩
  exact ⟨hdef ▸ h.1, hdef ▸ h.2, fun d' hd => hd ▸ rfl⟩

theorem colorHash_spec_witness :
    getColorFromDomainHash "shop.example.com" ≠ TabGroupColor.grey ∧
    getColorFromDomainHash "shop.example.com" ∈ hashPalette ∧
    getColorFromDomainHash "shop.example.com" =
      getColorFromDomainHash "shop.example.com" := by
  have h := colorHash_spec "shop.example.com"
  exact ⟨h.1, h.2.1, h.2.2 "shop.example.com" rfl⟩

/- ------------------------------------------------------------------
C10 — settings update is a frame-preserving merge.
------------------------------------------------------------------ -/

/-- C10: `storage.updateSettings` (the operation behind
`UPDATE_SETTINGS`) persists the merge of the update payload over the
current settings and returns exactly the persisted value, leaving every
field that is not a key of the payload unchanged. -/
theorem updateSettings_spec (st : StorageData) (u : SettingsUpdate) :
    ((updateSettingsStore st u).1).settings = (updateSettingsStore st u).2 ∧
    (updateSettingsStore st u).2 = applySettingsUpdate st.settings u ∧
    (u.viewOneGroupAtATime = none →
      (updateSettingsStore st u).2.viewOneGroupAtATime = st.settings.viewOneGroupAtATime) ∧
    (u.autoSaveEnabled = none →
      (updateSettingsStore st u).2.autoSaveEnabled = st.settings.autoSaveEnabled) ∧
    (u.autoSaveInterval = none →
      (updateSettingsStore st u).2.autoSaveInterval = st.settings.autoSaveInterval) ∧
    (u.autoGroupByDomain = none →
      (updateSettingsStore st u).2.autoGroupByDomain = st.settings.autoGroupByDomain) ∧
    (u.suspensionTimeout = none →
      (updateSettingsStore st u).2.suspensionTimeout = st.settings.suspensionTimeout) ∧
    (u.suspensionWhitelist = none →
      (updateSettingsStore st u).2.suspensionWhitelist = st.settings.suspensionWhitelist) ∧
    (u.showTabCountBadge = none →
      (updateSettingsStore st u).2.showTabCountBadge = st.settings.showTabCountBadge) ∧
    (u.maxSessions = none →
      (updateSettingsStore st u).2.maxSessions = st.settings.maxSessions) ∧
    (u.showUngroupedTabs = none →
      (updateSettingsStore st u).2.showUngroupedTabs = st.settings.showUngroupedTabs) ∧
    (u.autoGroupThreshold = none →
      (updateSettingsStore st u).2.autoGroupThreshold = st.settings.autoGroupThreshold) := by
  refine ⟨rfl, rfl, ?_, ?_, ?_, ?_, ?_, ?_, ?_, ?_, ?_, ?_⟩ <;>
    (intro h; simp [updateSettingsStore, applySettingsUpdate, h])

theorem updateSettings_spec_witness :
    ((updateSettingsStore DEFAULT_STORAGE_DATA {}).1).settings =
      (updateSettingsStore DEFAULT_STORAGE_DATA {}).2 ∧
    (updateSettingsStore DEFAULT_STORAGE_DATA {}).2.maxSessions =
      DEFAULT_STORAGE_DATA.settings.maxSessions ∧
    (updateSettingsStore DEFAULT_STORAGE_DATA {}).2.showUngroupedTabs =
      DEFAULT_STORAGE_DATA.settings.showUngroupedTabs := by
  have h := updateSettings_spec DEFAULT_STORAGE_DATA {}
  exact ⟨h.1, h.2.2.2.2.2.2.2.2.2.1 rfl, h.2.2.2.2.2.2.2.2.2.2.1 rfl⟩

/- ------------------------------------------------------------------
C7 — empty session names (corrected).
------------------------------------------------------------------ -/

/-- C7 counterexample: with the name `" "` (empty after trimming) the
`SAVE_SESSION` command does *not* fail — it reports success and a session
is added to the persisted list.  There is no `ValidationError` anywhere on
this path. -/
theorem saveSession_emptyName_counterexample :
    (handleSaveSession emptyWorld " " 5 "s1").2.success = true ∧
    (handleSaveSession emptyWorld " " 5 "s1").1.store.sessions ≠ [] := by
  constructor
  · rfl
  · decide

/-- C7 (amended): for every name that is empty after trimming, the *popup
caller* silently refuses to issue `SAVE_SESSION` (no message, no error);
the `SAVE_SESSION` command itself performs no validation — invoked
directly with such a name it succeeds and prepends a session bearing that
name to the persisted list (subject to the `maxSessions` truncation). -/
theorem saveSession_emptyName_amended (input : String) (h : jsTrim input = "")
    (w : World) (now : Nat) (genId : String) :
    popupSaveSessionPayload input = none ∧
    (handleSaveSession w input now genId).2.success = true ∧
    (handleSaveSession w input now genId).1.store.sessions =
      ((bgSaveSession w input now genId).2 :: w.store.sessions).take
        w.store.settings.maxSessions ∧
    (bgSaveSession w input now genId).2.name = input := by
  refine ⟨?_, rfl, ?_, rfl⟩
  · simp [popupSaveSessionPayload, h]
  · exact storeSaveSession_sessions w.store (bgSaveSession w input now genId).2

theorem saveSession_emptyName_amended_witness :
    popupSaveSessionPayload " " = none ∧
    (handleSaveSession emptyWorld " " 5 "s1").2.success = true ∧
    (handleSaveSession emptyWorld " " 5 "s1").1.store.sessions =
      ((bgSaveSession emptyWorld " " 5 "s1").2 :: emptyWorld.store.sessions).take
        emptyWorld.store.settings.maxSessions ∧
    (bgSaveSession emptyWorld " " 5 "s1").2.name = " " :=
  saveSession_emptyName_amended " " (by decide) emptyWorld 5 "s1"

/-- How the dispatcher runs `focus`: `HIDE_OTHER_GROUPS` awaits
`hideOtherGroups` and catches the `NotFound` throw, which occurs before
any mutation — the state is unchanged on failure. -/
def runFocus (groupId : String) (now : Nat) (w : World) (s : BgState) :
    World × BgState :=
  match hideOtherGroups groupId now w s with
  | Except.ok r => r
  | Except.error _ => (w, s)

/- ------------------------------------------------------------------
C1 — the snapshot is a partition with a trailing synthetic bucket.
------------------------------------------------------------------ -/

theorem chromePre_ne_ungrouped (s : String) : "chrome-" ++ s ≠ "ungrouped" := by
  intro h
  have h2 : ("chrome-" ++ s).data = "ungrouped".data := congrArg String.data h
  rw [String.data_append] at h2
  have hc : "chrome-".data = ['c', 'h', 'r', 'o', 'm', 'e', '-'] := rfl
  have hu : "ungrouped".data = ['u', 'n', 'g', 'r', 'o', 'u', 'p', 'e', 'd'] := rfl
  rw [hc, hu] at h2
  simp at h2

theorem any_groupBucket_iff (tabs : List ChromeTab) (gid : Int) (i : Nat) :
    (groupBucket tabs gid).any (fun tb => tb.id == i) = true ↔
      ∃ t ∈ tabs, isUngroupedTab t = false ∧ t.groupId = gid ∧ t.id = i := by
  simp only [groupBucket, List.any_eq_true, List.mem_map, List.mem_filter,
    Bool.and_eq_true, Bool.not_eq_true', beq_iff_eq, decide_eq_true_eq]
  constructor
  · rintro ⟨tb, ⟨t, ⟨ht, hng, hgid⟩, rfl⟩, hid⟩
    exact ⟨t, ht, hng, hgid, hid⟩
  · rintro ⟨t, ht, hng, hgid, hid⟩
    exact ⟨toTabData t, ⟨t, ⟨ht, hng, hgid⟩, rfl⟩, hid⟩

theorem any_ungroupedBucket_iff (tabs : List ChromeTab) (i : Nat) :
    (ungroupedBucket tabs).any (fun tb => tb.id == i) = true ↔
      ∃ t ∈ tabs, isUngroupedTab t = true ∧ t.id = i := by
  simp only [ungroupedBucket, List.any_eq_true, List.mem_map, List.mem_filter,
    beq_iff_eq]
  constructor
  · rintro ⟨tb, ⟨t, ⟨ht, hug⟩, rfl⟩, hid⟩
    exact ⟨t, ht, hug, hid⟩
  · rintro ⟨t, ht, hug, hid⟩
    exact ⟨toTabData t, ⟨t, ⟨ht, hug⟩, rfl⟩, hid⟩

/-- C1: for every provider read (distinct tab ids, distinct positive group
ids, and every grouped tab's group present in the group list — what any
consistent provider returns), the snapshot places every tab in exactly one
group: its provider group when it has one, otherwise the synthetic bucket;
the synthetic bucket exists iff at least one ungrouped tab does, appears
last, is unique, and carries id `"ungrouped"`, name `"Ungrouped"`, grey
color and the sentinel `chromeGroupId = -1`. -/
theorem snapshot_partition (tabs : List ChromeTab) (chromeGroups : List ChromeGroup)
    (now : Nat)
    (htab : (tabs.map ChromeTab.id).Nodup)
    (hgrp : (chromeGroups.map ChromeGroup.id).Nodup)
    (hmem : ∀ t ∈ tabs, isUngroupedTab t = true ∨ ∃ g ∈ chromeGroups, g.id = t.groupId) :
    (∀ t ∈ tabs,
      (getTabGroups tabs chromeGroups now).countP
        (fun g => g.tabs.any (fun tb => tb.id == t.id)) = 1) ∧
    ((∃ t ∈ tabs, isUngroupedTab t = true) →
      ∃ pre ub, getTabGroups tabs chromeGroups now = pre ++ [ub] ∧
        ub.id = "ungrouped" ∧ ub.name = "Ungrouped" ∧ ub.color = TabGroupColor.grey ∧
        ub.chromeGroupId = -1 ∧ ∀ g ∈ pre, g.id ≠ "ungrouped") ∧
    ((∀ t ∈ tabs, isUngroupedTab t = false) →
      ∀ g ∈ getTabGroups tabs chromeGroups now, g.id ≠ "ungrouped") := by
  have idInj : ∀ t ∈ tabs, ∀ t' ∈ tabs, ChromeTab.id t = ChromeTab.id t' → t = t' :=
    fun t ht t' ht' h => List.inj_on_of_nodup_map htab ht ht' h
  refine ⟨?_, ?_, ?_⟩
  · intro t ht
    rw [getTabGroups, List.countP_append]
    by_cases hu : isUngroupedTab t = true
    · have hreal : (chromeGroups.map (mkRealGroup tabs now)).countP
          (fun g => g.tabs.any (fun tb => tb.id == t.id)) = 0 := by
        rw [List.countP_eq_zero]
        intro g hg
        simp only [List.mem_map] at hg
        obtain ⟨cg, _, rfl⟩ := hg
        intro hany
        obtain ⟨t', ht', hng, _, hid⟩ :=
          (any_groupBucket_iff tabs cg.id t.id).mp hany
        rw [idInj t' ht' t ht hid] at hng
        rw [hu] at hng
        exact absurd hng (by decide)
      have hmemU : toTabData t ∈ ungroupedBucket tabs :=
        List.mem_map_of_mem toTabData (List.mem_filter.mpr ⟨ht, hu⟩)
      have hne : (ungroupedBucket tabs).isEmpty = false := by
        rw [List.isEmpty_eq_false]
        intro h0
        rw [h0] at hmemU
        exact List.not_mem_nil _ hmemU
      rw [hreal, hne]
      simp only [Bool.false_eq_true, if_false, List.countP_singleton]
      have : (mkUngroupedGroup tabs).tabs.any (fun tb => tb.id == t.id) = true :=
        (any_ungroupedBucket_iff tabs t.id).mpr ⟨t, ht, hu, rfl⟩
      rw [this]
      simp
    · have hu' : isUngroupedTab t = false := Bool.not_eq_true _ ▸ (by simpa using hu)
      obtain ⟨g0, hg0, hgid⟩ := (hmem t ht).resolve_left hu
      have hcongr : ∀ cg ∈ chromeGroups,
          ((fun g => TabGroup.tabs g |>.any (fun tb => tb.id == t.id)) ∘
            mkRealGroup tabs now) cg = true ↔ (cg.id == t.groupId) = true := by
        intro cg _
        simp only [Function.comp]
        rw [show (mkRealGroup tabs now cg).tabs = groupBucket tabs cg.id from rfl]
        rw [any_groupBucket_iff tabs cg.id t.id]
        constructor
        · rintro ⟨t', ht', _, hgid', hid⟩
          rw [idInj t' ht' t ht hid] at hgid'
          simp [hgid']
        · intro h
          exact ⟨t, ht, hu', (beq_iff_eq.mp h).symm, rfl⟩
      have hreal : (chromeGroups.map (mkRealGroup tabs now)).countP
          (fun g => g.tabs.any (fun tb => tb.id == t.id)) = 1 := by
        rw [List.countP_map, List.countP_congr hcongr]
        have hcnt : List.count t.groupId (chromeGroups.map ChromeGroup.id) = 1 :=
          List.count_eq_one_of_mem hgrp
            (hgid ▸ List.mem_map_of_mem ChromeGroup.id hg0)
        rw [List.count_eq_countP, List.countP_map] at hcnt
        exact hcnt
      have htail : (if (ungroupedBucket tabs).isEmpty then []
          else [mkUngroupedGroup tabs]).countP
            (fun g => g.tabs.any (fun tb => tb.id == t.id)) = 0 := by
        by_cases he : (ungroupedBucket tabs).isEmpty
        · rw [he]; simp
        · rw [Bool.not_eq_true] at he
          rw [he]
          simp only [Bool.false_eq_true, if_false, List.countP_singleton]
          have : (mkUngroupedGroup tabs).tabs.any (fun tb => tb.id == t.id) = false := by
            rw [Bool.eq_false_iff]
            intro hany
            obtain ⟨t', ht', hug, hid⟩ := (any_ungroupedBucket_iff tabs t.id).mp hany
            rw [idInj t' ht' t ht hid] at hug
            rw [hu'] at hug
            exact Bool.false_ne_true hug
          rw [this]
          simp
      rw [hreal, htail]
  · rintro ⟨t, ht, hu⟩
    have hmemU : toTabData t ∈ ungroupedBucket tabs :=
      List.mem_map_of_mem toTabData (List.mem_filter.mpr ⟨ht, hu⟩)
    have hne : (ungroupedBucket tabs).isEmpty = false := by
      rw [List.isEmpty_eq_false]
      intro h0
      rw [h0] at hmemU
      exact List.not_mem_nil _ hmemU
    refine ⟨chromeGroups.map (mkRealGroup tabs now), mkUngroupedGroup tabs, ?_,
      rfl, rfl, rfl, rfl, ?_⟩
    · rw [getTabGroups, hne]
      simp
    · intro g hg
      obtain ⟨cg, _, rfl⟩ := List.mem_map.mp hg
      exact chromePre_ne_ungrouped (toString cg.id)
  · intro hall
    have hemp : ungroupedBucket tabs = [] := by
      rw [ungroupedBucket]
      rw [show (List.filter (fun t => isUngroupedTab t) tabs) = [] from ?_, List.map_nil]
      rw [List.filter_eq_nil_iff]
      intro t ht
      rw [hall t ht]
      exact Bool.false_ne_true
    intro g hg
    rw [getTabGroups, hemp] at hg
    simp only [List.isEmpty_nil, if_true, List.append_nil] at hg
    obtain ⟨cg, _, rfl⟩ := List.mem_map.mp hg
    exact chromePre_ne_ungrouped (toString cg.id)

def cgWork : ChromeGroup :=
  { id := 100, title := "Work", color := TabGroupColor.blue, collapsed := false }

def ctabGrouped : ChromeTab :=
  { id := 1, url := "https://a.com/x", title := "A", favIconUrl := "",
    pinned := false, active := false, groupId := 100 }

def ctabLoose : ChromeTab :=
  { id := 2, url := "https://b.com", title := "B", favIconUrl := "",
    pinned := false, active := true, groupId := -1 }

theorem snapshot_partition_witness :
    (getTabGroups [ctabGrouped, ctabLoose] [cgWork] 3).countP
      (fun g => g.tabs.any (fun tb => tb.id == 1)) = 1 ∧
    (getTabGroups [ctabGrouped, ctabLoose] [cgWork] 3).countP
      (fun g => g.tabs.any (fun tb => tb.id == 2)) = 1 := by
  have h := snapshot_partition [ctabGrouped, ctabLoose] [cgWork] 3
    (by decide) (by decide) (by decide)
  exact ⟨h.1 ctabGrouped (by decide), h.1 ctabLoose (by decide)⟩

/- ------------------------------------------------------------------
C2 — focus then unfocus restores the resting state.
------------------------------------------------------------------ -/

theorem expandFold_chromeGroups : ∀ (gs : List TabGroup) (w : World),
    (gs.foldl expandStep w).chromeGroups =
      w.chromeGroups.map (fun cg =>
        if ∃ g ∈ gs, 0 < g.chromeGroupId ∧ g.chromeGroupId = cg.id then
          { cg with collapsed := false } else cg) := by
  intro gs
  induction gs with
  | nil =>
    intro w
    simp
  | cons g rest ih =>
    intro w
    rw [List.foldl_cons, ih]
    by_cases hpos : g.chromeGroupId > 0
    · have hstep : (expandStep w g).chromeGroups = w.chromeGroups.map
          (fun cg => if cg.id = g.chromeGroupId then { cg with collapsed := false } else cg) := by
        rw [expandStep, if_pos hpos]
        rfl
      rw [hstep, List.map_map]
      refine List.map_congr_left ?_
      intro cg _
      by_cases hid : cg.id = g.chromeGroupId
      · have hhead : ∃ g' ∈ g :: rest, 0 < g'.chromeGroupId ∧ g'.chromeGroupId = cg.id :=
          ⟨g, List.mem_cons_self g rest, hpos, hid.symm⟩
        rw [if_pos hhead]
        simp only [Function.comp_apply, if_pos hid]
        by_cases hrest : ∃ g' ∈ rest, 0 < g'.chromeGroupId ∧
            g'.chromeGroupId = ({ cg with collapsed := false } : ChromeGroup).id
        · rw [if_pos hrest]
        · rw [if_neg hrest]
      · simp only [Function.comp_apply, if_neg hid]
        refine if_congr ?_ rfl rfl
        constructor
        · rintro ⟨g', hg', hp, he⟩
          exact ⟨g', List.mem_cons_of_mem g hg', hp, he⟩
        · rintro ⟨g', hg', hp, he⟩
          rcases List.mem_cons.mp hg' with e | hm
          · exact absurd (e ▸ he).symm hid
          · exact ⟨g', hm, hp, he⟩
    · have hstep : expandStep w g = w := by rw [expandStep, if_neg hpos]
      rw [hstep]
      refine List.map_congr_left ?_
      intro cg _
      refine if_congr ?_ rfl rfl
      constructor
      · rintro ⟨g', hg', hp, he⟩
        exact ⟨g', List.mem_cons_of_mem g hg', hp, he⟩
      · rintro ⟨g', hg', hp, he⟩
        rcases List.mem_cons.mp hg' with e | hm
        · exact absurd (e ▸ hp) hpos
        · exact ⟨g', hm, hp, he⟩

theorem setGroupCollapsed_ids (w : World) (gid : Int) (b : Bool) :
    (setGroupCollapsed w gid b).chromeGroups.map ChromeGroup.id =
      w.chromeGroups.map ChromeGroup.id := by
  rw [setGroupCollapsed]
  show (w.chromeGroups.map _).map ChromeGroup.id = _
  rw [List.map_map]
  refine List.map_congr_left ?_
  intro g _
  by_cases h : g.id = gid
  · simp [h]
  · simp [h]

theorem hideFold_chromeGroups (ts : List Tab) : ∀ acc : World × List Nat,
    ((ts.foldl
      (fun acc tb =>
        if tb.pinned then acc
        else (updateTabActive acc.1 tb.id false, acc.2 ++ [tb.id]))
      acc).1).chromeGroups = acc.1.chromeGroups := by
  induction ts with
  | nil => intro acc; rfl
  | cons tb rest ih =>
    intro acc
    rw [List.foldl_cons, ih]
    by_cases h : tb.pinned
    · rw [if_pos h]
    · rw [if_neg h]
      rfl

theorem focusStep_ids (gid : String) (st : Settings) (acc : World × List Nat)
    (g : TabGroup) :
    ((focusStep gid st acc g).1).chromeGroups.map ChromeGroup.id =
      acc.1.chromeGroups.map ChromeGroup.id := by
  rw [focusStep]
  by_cases h1 : g.id = gid
  · rw [if_pos h1]
  · rw [if_neg h1]
    by_cases h2 : (g.id = "ungrouped" && st.showUngroupedTabs) = true
    · rw [if_pos h2]
    · rw [if_neg h2]
      have hhide : (hideTabsOfGroup acc g).1.chromeGroups = acc.1.chromeGroups :=
        hideFold_chromeGroups g.tabs acc
      by_cases h3 : g.chromeGroupId > 0
      · rw [if_pos h3]
        show (setGroupCollapsed (hideTabsOfGroup acc g).1 g.chromeGroupId true).chromeGroups.map
          ChromeGroup.id = _
        rw [setGroupCollapsed_ids, hhide]
      · rw [if_neg h3, hhide]

theorem focusFold_ids (gid : String) (st : Settings) :
    ∀ (gs : List TabGroup) (acc : World × List Nat),
      ((gs.foldl (focusStep gid st) acc).1).chromeGroups.map ChromeGroup.id =
        acc.1.chromeGroups.map ChromeGroup.id := by
  intro gs
  induction gs with
  | nil => intro acc; rfl
  | cons g rest ih =>
    intro acc
    rw [List.foldl_cons, ih, focusStep_ids]

theorem focusApply_ids (groupId : String) (groups : List TabGroup)
    (targetGroup : TabGroup) (w : World) (s : BgState) :
    (focusApply groupId groups targetGroup w s).1.chromeGroups.map ChromeGroup.id =
      w.chromeGroups.map ChromeGroup.id := by
  dsimp only [focusApply]
  cases htabs : targetGroup.tabs with
  | nil =>
    by_cases h : targetGroup.chromeGroupId > 0
    · rw [if_pos h]
      rw [setGroupCollapsed_ids, focusFold_ids]
    · rw [if_neg h, focusFold_ids]
  | cons tb rest =>
    show (updateTabActive _ tb.id true).chromeGroups.map ChromeGroup.id = _
    rw [show ∀ (w2 : World) (i : Nat) (b : Bool),
        (updateTabActive w2 i b).chromeGroups = w2.chromeGroups from fun _ _ _ => rfl]
    by_cases h : targetGroup.chromeGroupId > 0
    · rw [if_pos h, setGroupCollapsed_ids, focusFold_ids]
    · rw [if_neg h, focusFold_ids]

theorem runFocus_ids (groupId : String) (now : Nat) (w : World) (s : BgState) :
    (runFocus groupId now w s).1.chromeGroups.map ChromeGroup.id =
      w.chromeGroups.map ChromeGroup.id := by
  rw [runFocus, hideOtherGroups]
  cases hf : (getTabGroups w.tabs w.chromeGroups now).find? (fun g => g.id = groupId) with
  | none => rfl
  | some tg => exact focusApply_ids groupId _ tg w s

/-- C2: executing `focus(g)` (`hideOtherGroups`, as the dispatcher runs
it) and then `unfocus()` (`showAllGroups`) leaves every real provider
group expanded, the `hiddenTabIds` set empty, and both the in-memory and
the persisted `activeGroupId` cleared — for every world whose provider
group ids are positive (as Chrome's are). -/
theorem focus_unfocus_restores (w : World) (s : BgState) (groupId : String)
    (now now' : Nat) (hpos : ∀ g ∈ w.chromeGroups, 0 < g.id) :
    (∀ g ∈ (showAllGroups now' (runFocus groupId now w s).1
        (runFocus groupId now w s).2).1.chromeGroups, g.collapsed = false) ∧
    (showAllGroups now' (runFocus groupId now w s).1
        (runFocus groupId now w s).2).2.hiddenTabIds = [] ∧
    (showAllGroups now' (runFocus groupId now w s).1
        (runFocus groupId now w s).2).2.activeGroupId = none ∧
    (showAllGroups now' (runFocus groupId now w s).1
        (runFocus groupId now w s).2).1.store.activeGroupId = none := by
  refine ⟨?_, rfl, rfl, rfl⟩
  intro g hg
  set w1 := (runFocus groupId now w s).1 with hw1
  have hpos1 : ∀ cg ∈ w1.chromeGroups, 0 < cg.id := by
    intro cg hcg
    have hmem : cg.id ∈ w1.chromeGroups.map ChromeGroup.id :=
      List.mem_map_of_mem ChromeGroup.id hcg
    rw [hw1, runFocus_ids] at hmem
    obtain ⟨g0, hg0, heq⟩ := List.mem_map.mp hmem
    rw [← heq]
    exact hpos g0 hg0
  have hg' : g ∈ ((getTabGroups w1.tabs w1.chromeGroups now').foldl
      expandStep w1).chromeGroups := hg
  rw [expandFold_chromeGroups] at hg'
  obtain ⟨cg, hcg, rfl⟩ := List.mem_map.mp hg'
  have hcond : ∃ g' ∈ getTabGroups w1.tabs w1.chromeGroups now',
      0 < g'.chromeGroupId ∧ g'.chromeGroupId = cg.id := by
    refine ⟨mkRealGroup w1.tabs now' cg, ?_, hpos1 cg hcg, rfl⟩
    rw [getTabGroups]
    exact List.mem_append_left _ (List.mem_map_of_mem (mkRealGroup w1.tabs now') hcg)
  rw [if_pos hcond]

def focusWorld : World :=
  { tabs := [ctabGrouped, ctabLoose]
    chromeGroups := [cgWork]
    nextGroupId := 200
    store := DEFAULT_STORAGE_DATA }

/-- The resting background state. -/
def bgState0 : BgState :=
  { activeGroupId := none, hiddenTabIds := [], suspendedTabs := [],
    tabLastActiveTime := [] }

theorem focus_unfocus_restores_witness :
    cgWork.collapsed = false ∧
    (showAllGroups 9 (runFocus "chrome-100" 8 focusWorld bgState0).1
      (runFocus "chrome-100" 8 focusWorld bgState0).2).2.hiddenTabIds = [] ∧
    (showAllGroups 9 (runFocus "chrome-100" 8 focusWorld bgState0).1
      (runFocus "chrome-100" 8 focusWorld bgState0).2).2.activeGroupId = none ∧
    (showAllGroups 9 (runFocus "chrome-100" 8 focusWorld bgState0).1
      (runFocus "chrome-100" 8 focusWorld bgState0).2).1.store.activeGroupId = none := by
  have h := focus_unfocus_restores focusWorld bgState0 "chrome-100" 8 9 (by decide)
  exact ⟨h.1 cgWork (by decide), h.2.1, h.2.2.1, h.2.2.2⟩

/- ------------------------------------------------------------------
C4 — duplicate detection.
------------------------------------------------------------------ -/

/-- The bucket stored under key `k` (empty when `k` is absent). -/
def lookupBucket (m : List (String × List Tab)) (k : String) : List Tab :=
  match m.find? (fun kv => kv.1 == k) with
  | some kv => kv.2
  | none => []

theorem pushBucket_lookup_self (m : List (String × List Tab)) (k : String) (t : Tab) :
    lookupBucket (pushBucket m k t) k = lookupBucket m k ++ [t] := by
  induction m with
  | nil => simp [pushBucket, lookupBucket, List.find?]
  | cons e rest ih =>
    obtain ⟨k', ts⟩ := e
    by_cases h : k' = k
    · simp [pushBucket, h, lookupBucket, List.find?]
    · simp only [pushBucket, if_neg h]
      have hb : (k' == k) = false := by simp [h]
      simp only [lookupBucket, List.find?, hb] at ih ⊢
      exact ih

theorem pushBucket_lookup_other (m : List (String × List Tab)) (k k' : String)
    (t : Tab) (h : k' ≠ k) :
    lookupBucket (pushBucket m k t) k' = lookupBucket m k' := by
  have hkk : (k == k') = false := beq_eq_false_iff_ne.mpr (fun e => h e.symm)
  induction m with
  | nil => simp [pushBucket, lookupBucket, List.find?, hkk]
  | cons e rest ih =>
    obtain ⟨ke, ts⟩ := e
    by_cases he : ke = k
    · subst he
      simp [pushBucket, lookupBucket, List.find?, hkk]
    · simp only [pushBucket, if_neg he]
      by_cases he' : ke = k'
      · subst he'
        simp [lookupBucket, List.find?]
      · have hb : (ke == k') = false := beq_eq_false_iff_ne.mpr he'
        simp only [lookupBucket, List.find?, hb] at ih ⊢
        exact ih

theorem pushBucket_keys (m : List (String × List Tab)) (k : String) (t : Tab) :
    (pushBucket m k t).map Prod.fst =
      if k ∈ m.map Prod.fst then m.map Prod.fst else m.map Prod.fst ++ [k] := by
  induction m with
  | nil => simp [pushBucket]
  | cons e rest ih =>
    obtain ⟨k', ts⟩ := e
    by_cases h : k' = k
    · simp [pushBucket, h]
    · simp only [pushBucket, if_neg h, List.map_cons, ih]
      by_cases hm : k ∈ rest.map Prod.fst
      · have hc : k ∈ k' :: rest.map Prod.fst := List.mem_cons_of_mem _ hm
        rw [if_pos hm, if_pos hc]
      · have hnotc : k ∉ k' :: rest.map Prod.fst := by
          intro hc
          rcases List.mem_cons.mp hc with e | e
          · exact h e.symm
          · exact hm e
        rw [if_neg hm, if_neg hnotc, List.cons_append]

theorem pushBucket_nodup (m : List (String × List Tab)) (k : String) (t : Tab)
    (h : (m.map Prod.fst).Nodup) : ((pushBucket m k t).map Prod.fst).Nodup := by
  rw [pushBucket_keys]
  by_cases hm : k ∈ m.map Prod.fst
  · rw [if_pos hm]; exact h
  · rw [if_neg hm]
    simp [List.nodup_append, h, hm]

theorem lookupBucket_of_mem (m : List (String × List Tab))
    (hnd : (m.map Prod.fst).Nodup) (kv : String × List Tab) (hkv : kv ∈ m) :
    lookupBucket m kv.1 = kv.2 := by
  induction m with
  | nil => exact absurd hkv (List.not_mem_nil kv)
  | cons e rest ih =>
    rw [List.map_cons, List.nodup_cons] at hnd
    rcases List.mem_cons.mp hkv with rfl | hmem
    · simp [lookupBucket, List.find?]
    · have hne : e.1 ≠ kv.1 := by
        intro he
        exact hnd.1 (he ▸ List.mem_map_of_mem Prod.fst hmem)
      have hb : (e.1 == kv.1) = false := by simp [hne]
      simp only [lookupBucket, List.find?, hb]
      exact ih hnd.2 hmem

theorem foldPush_lookup (keyf : Tab → String) :
    ∀ (xs : List Tab) (m : List (String × List Tab)) (p : List Tab),
      (∀ k, lookupBucket m k = p.filter (fun tb => keyf tb == k)) →
      ∀ k, lookupBucket (xs.foldl (fun m tb => pushBucket m (keyf tb) tb) m) k =
        (p ++ xs).filter (fun tb => keyf tb == k) := by
  intro xs
  induction xs with
  | nil =>
    intro m p hinv k
    simpa using hinv k
  | cons x rest ih =>
    intro m p hinv k
    rw [List.foldl_cons]
    have hstep : ∀ k', lookupBucket (pushBucket m (keyf x) x) k' =
        (p ++ [x]).filter (fun tb => keyf tb == k') := by
      intro k'
      by_cases hk : keyf x = k'
      · rw [← hk, pushBucket_lookup_self, hinv, List.filter_append]
        simp
      · rw [pushBucket_lookup_other _ _ _ _ (fun he => hk he.symm), hinv,
          List.filter_append]
        have : ([x].filter (fun tb => keyf tb == k')) = [] := by simp [hk]
        rw [this, List.append_nil]
    have := ih (pushBucket m (keyf x) x) (p ++ [x]) hstep k
    rw [this, List.append_assoc]
    rfl

theorem foldPush_nodup (keyf : Tab → String) :
    ∀ (xs : List Tab) (m : List (String × List Tab)),
      (m.map Prod.fst).Nodup →
      (((xs.foldl (fun m tb => pushBucket m (keyf tb) tb) m)).map Prod.fst).Nodup := by
  intro xs
  induction xs with
  | nil => intro m h; exact h
  | cons x rest ih =>
    intro m h
    rw [List.foldl_cons]
    exact ih _ (pushBucket_nodup m (keyf x) x h)

def dupT1 : ChromeTab :=
  { id := 1, url := "https://a.com/x?x=1", title := "A1", favIconUrl := "",
    pinned := false, active := false, groupId := -1 }

def dupT2 : ChromeTab :=
  { id := 2, url := "https://a.com/x?x=2", title := "A2", favIconUrl := "",
    pinned := false, active := false, groupId := -1 }

def dupT3 : ChromeTab :=
  { id := 3, url := "https://b.com", title := "B", favIconUrl := "",
    pinned := false, active := false, groupId := -1 }

/-- C4: every bucket `findDuplicates` returns holds at least two tabs and
is exactly the sublist of snapshot tabs (in encounter order) whose
normalized URL equals the bucket's key; on the three-tab example the
`ignoreQueryParams = true` run yields the single bucket
`https://a.com/x` with both `a.com` tabs, and the
`ignoreQueryParams = false` run yields no buckets. -/
theorem findDuplicates_spec (iqp : Bool) (tabs : List ChromeTab)
    (chromeGroups : List ChromeGroup) (now : Nat) :
    (∀ kv ∈ findDuplicates iqp tabs chromeGroups now,
      2 ≤ kv.2.length ∧
      kv.2 = (snapshotTabs tabs chromeGroups now).filter
        (fun tb => normalizeUrl tb.url iqp == kv.1)) ∧
    findDuplicates true [dupT1, dupT2, dupT3] [] 7 =
      [("https://a.com/x", [toTabData dupT1, toTabData dupT2])] ∧
    findDuplicates false [dupT1, dupT2, dupT3] [] 7 = [] := by
  refine ⟨?_, by decide, by decide⟩
  intro kv hkv
  rw [findDuplicates] at hkv
  rw [List.mem_filter] at hkv
  obtain ⟨hmem, hlen⟩ := hkv
  constructor
  · simpa using Nat.succ_le_of_lt (by simpa using hlen)
  · have hnd := foldPush_nodup (fun tb => normalizeUrl tb.url iqp)
      (snapshotTabs tabs chromeGroups now) [] (by simp)
    have hlook := lookupBucket_of_mem _ hnd kv hmem
    have hfold := foldPush_lookup (fun tb => normalizeUrl tb.url iqp)
      (snapshotTabs tabs chromeGroups now) [] []
      (fun k => by simp [lookupBucket, List.find?]) kv.1
    rw [hlook] at hfold
    simpa using hfold

theorem findDuplicates_spec_witness :
    2 ≤ [toTabData dupT1, toTabData dupT2].length ∧
    [toTabData dupT1, toTabData dupT2] =
      (snapshotTabs [dupT1, dupT2, dupT3] [] 7).filter
        (fun tb => normalizeUrl tb.url true == "https://a.com/x") :=
  (findDuplicates_spec true [dupT1, dupT2, dupT3] [] 7).1
    ("https://a.com/x", [toTabData dupT1, toTabData dupT2]) (by decide)

/- ------------------------------------------------------------------
C5 / C6 — domain clustering.
------------------------------------------------------------------ -/

/-- The tab ids stored in the `domainMap` under domain `d`. -/
def bucketIdsAt (m : List DomainEntry) (d : String) : List Nat :=
  match m.find? (fun e => e.domain == d) with
  | some e => e.tabIds
  | none => []

/-- The domain-`d` bucket as a function of the scanned tabs: the ids of
the tabs whose cluster key is `d`, in scan order. -/
def domainBucket (tabs : List ChromeTab) (skip : Bool) (d : String) : List Nat :=
  (tabs.filter (fun t => clusterKey skip t == some d)).map ChromeTab.id

theorem addToDomainMap_bucketIds_self (m : List DomainEntry) (d : String)
    (tid : Nat) (fav : String) :
    bucketIdsAt (addToDomainMap m d tid fav) d = bucketIdsAt m d ++ [tid] := by
  induction m with
  | nil => simp [addToDomainMap, bucketIdsAt, List.find?]
  | cons e rest ih =>
    by_cases he : e.domain = d
    · simp [addToDomainMap, he, bucketIdsAt, List.find?]
    · have hb : (e.domain == d) = false := beq_eq_false_iff_ne.mpr he
      simp only [addToDomainMap, if_neg he]
      simp only [bucketIdsAt, List.find?, hb] at ih ⊢
      exact ih

theorem addToDomainMap_bucketIds_other (m : List DomainEntry) (d d' : String)
    (tid : Nat) (fav : String) (h : d' ≠ d) :
    bucketIdsAt (addToDomainMap m d tid fav) d' = bucketIdsAt m d' := by
  have hdd : (d == d') = false := beq_eq_false_iff_ne.mpr (fun e => h e.symm)
  induction m with
  | nil => simp [addToDomainMap, bucketIdsAt, List.find?, hdd]
  | cons e rest ih =>
    by_cases he : e.domain = d
    · have hb : (e.domain == d') = false := beq_eq_false_iff_ne.mpr (he ▸ fun x => h x.symm)
      simp [addToDomainMap, he, bucketIdsAt, List.find?, hb, hdd]
    · simp only [addToDomainMap, if_neg he]
      by_cases he' : e.domain = d'
      · simp [bucketIdsAt, List.find?, he']
      · have hb : (e.domain == d') = false := beq_eq_false_iff_ne.mpr he'
        simp only [bucketIdsAt, List.find?, hb] at ih ⊢
        exact ih

theorem addToDomainMap_keys (m : List DomainEntry) (d : String) (tid : Nat)
    (fav : String) :
    (addToDomainMap m d tid fav).map DomainEntry.domain =
      if d ∈ m.map DomainEntry.domain then m.map DomainEntry.domain
      else m.map DomainEntry.domain ++ [d] := by
  induction m with
  | nil => simp [addToDomainMap]
  | cons e rest ih =>
    by_cases h : e.domain = d
    · simp [addToDomainMap, h]
    · simp only [addToDomainMap, if_neg h, List.map_cons, ih]
      by_cases hm : d ∈ rest.map DomainEntry.domain
      · have hc : d ∈ e.domain :: rest.map DomainEntry.domain := List.mem_cons_of_mem _ hm
        rw [if_pos hm, if_pos hc]
      · have hnotc : d ∉ e.domain :: rest.map DomainEntry.domain := by
          intro hc
          rcases List.mem_cons.mp hc with he | he
          · exact h he.symm
          · exact hm he
        rw [if_neg hm, if_neg hnotc, List.cons_append]

theorem addToDomainMap_nodup (m : List DomainEntry) (d : String) (tid : Nat)
    (fav : String) (h : (m.map DomainEntry.domain).Nodup) :
    ((addToDomainMap m d tid fav).map DomainEntry.domain).Nodup := by
  rw [addToDomainMap_keys]
  by_cases hm : d ∈ m.map DomainEntry.domain
  · rw [if_pos hm]; exact h
  · rw [if_neg hm]
    simp [List.nodup_append, h, hm]

theorem bucketIdsAt_of_mem (m : List DomainEntry)
    (hnd : (m.map DomainEntry.domain).Nodup) (e : DomainEntry) (he : e ∈ m) :
    bucketIdsAt m e.domain = e.tabIds := by
  induction m with
  | nil => exact absurd he (List.not_mem_nil e)
  | cons e0 rest ih =>
    rw [List.map_cons, List.nodup_cons] at hnd
    rcases List.mem_cons.mp he with rfl | hmem
    · simp [bucketIdsAt, List.find?]
    · have hne : e0.domain ≠ e.domain := by
        intro hd
        exact hnd.1 (hd ▸ List.mem_map_of_mem DomainEntry.domain hmem)
      have hb : (e0.domain == e.domain) = false := beq_eq_false_iff_ne.mpr hne
      simp only [bucketIdsAt, List.find?, hb]
      exact ih hnd.2 hmem

theorem foldDomain_bucketIds (skip : Bool) :
    ∀ (xs : List ChromeTab) (m : List DomainEntry) (p : List ChromeTab),
      (∀ d, bucketIdsAt m d = domainBucket p skip d) →
      ∀ d, bucketIdsAt (xs.foldl
          (fun m t =>
            match clusterKey skip t with
            | none => m
            | some d => addToDomainMap m d t.id t.favIconUrl) m) d =
        domainBucket (p ++ xs) skip d := by
  intro xs
  induction xs with
  | nil =>
    intro m p hinv d
    simpa [domainBucket] using hinv d
  | cons x rest ih =>
    intro m p hinv d
    rw [List.foldl_cons]
    have hstep : ∀ d',
        bucketIdsAt (match clusterKey skip x with
          | none => m
          | some dx => addToDomainMap m dx x.id x.favIconUrl) d' =
          domainBucket (p ++ [x]) skip d' := by
      intro d'
      cases hck : clusterKey skip x with
      | none =>
        rw [hinv d', domainBucket, domainBucket, List.filter_append]
        have : ([x].filter (fun t => clusterKey skip t == some d')) = [] := by
          simp [hck]
        rw [this, List.append_nil]
      | some dx =>
        by_cases hd : dx = d'
        · subst hd
          rw [addToDomainMap_bucketIds_self, hinv dx, domainBucket, domainBucket,
            List.filter_append]
          have : ([x].filter (fun t => clusterKey skip t == some dx)) = [x] := by
            simp [hck]
          rw [this, List.map_append]
          rfl
        · rw [addToDomainMap_bucketIds_other _ _ _ _ _ (fun he => hd he.symm), hinv d',
            domainBucket, domainBucket, List.filter_append]
          have : ([x].filter (fun t => clusterKey skip t == some d')) = [] := by
            simp [hck, hd]
          rw [this, List.append_nil]
    have := ih _ (p ++ [x]) hstep d
    rw [this, List.append_assoc]
    rfl

theorem buildDomainMap_bucketIds (tabs : List ChromeTab) (skip : Bool) (d : String) :
    bucketIdsAt (buildDomainMap tabs skip) d = domainBucket tabs skip d := by
  have := foldDomain_bucketIds skip tabs [] []
    (fun d' => by simp [bucketIdsAt, List.find?, domainBucket]) d
  simpa [buildDomainMap] using this

theorem buildDomainMap_nodup (tabs : List ChromeTab) (skip : Bool) :
    ((buildDomainMap tabs skip).map DomainEntry.domain).Nodup := by
  rw [buildDomainMap]
  generalize hini : ([] : List DomainEntry) = m0
  have h0 : (m0.map DomainEntry.domain).Nodup := by rw [← hini]; simp
  clear hini
  induction tabs generalizing m0 with
  | nil => exact h0
  | cons x rest ih =>
    rw [List.foldl_cons]
    cases hck : clusterKey skip x with
    | none => exact ih _ h0
    | some dx => exact ih _ (addToDomainMap_nodup m0 dx x.id x.favIconUrl h0)

theorem createGroupInWorld_len (w : World) (ids : List Nat) (title : String)
    (color : TabGroupColor) :
    (createGroupInWorld w ids title color).chromeGroups.length =
      w.chromeGroups.length + 1 := by
  simp [createGroupInWorld]

theorem checkLoop_skip_all (w : World) (td : String) (thr : Nat) (hd : td ≠ "") :
    ∀ m : List DomainEntry, (∀ e ∈ m, e.domain ≠ td) →
      checkLoop w (some td) thr m = w := by
  intro m
  induction m with
  | nil => intro _; rfl
  | cons e rest ih =>
    intro hall
    have hcond : (decide (td ≠ "") && decide (e.domain ≠ td)) = true := by
      simp [hd, hall e (List.mem_cons_self e rest)]
    simp only [checkLoop]
    rw [if_pos hcond]
    exact ih (fun e' he' => hall e' (List.mem_cons_of_mem e he'))

theorem checkLoop_target (w : World) (thr : Nat) (d : String) (hd : d ≠ "") :
    ∀ m : List DomainEntry, (m.map DomainEntry.domain).Nodup →
      checkLoop w (some d) thr m =
        match m.find? (fun e => e.domain == d) with
        | none => w
        | some e =>
          if thr ≤ e.tabIds.length then
            createGroupInWorld w e.tabIds e.domain
              (getColorFromFaviconWithFallback e.favicon e.domain)
          else w := by
  intro m
  induction m with
  | nil => intro _; rfl
  | cons e rest ih =>
    intro hnd
    rw [List.map_cons, List.nodup_cons] at hnd
    by_cases hdom : e.domain = d
    · have hb : (e.domain == d) = true := beq_iff_eq.mpr hdom
      have hcond : (decide (d ≠ "") && decide (e.domain ≠ d)) = false := by
        simp [hdom]
      simp only [checkLoop]
      rw [if_neg (by rw [hcond]; exact Bool.false_ne_true)]
      by_cases hthr : e.tabIds.length ≥ thr
      · rw [if_pos hthr]
        simp [List.find?, hb, hthr]
      · rw [if_neg hthr]
        have hrest : checkLoop w (some d) thr rest = w := by
          refine checkLoop_skip_all w d thr hd rest ?_
          intro e' he' hde
          exact hnd.1 (hdom ▸ hde ▸ List.mem_map_of_mem DomainEntry.domain he')
        rw [hrest]
        simp only [List.find?, hb]
        rw [if_neg hthr]
    · have hb : (e.domain == d) = false := beq_eq_false_iff_ne.mpr hdom
      have hcond : (decide (d ≠ "") && decide (e.domain ≠ d)) = true := by
        simp [hd, hdom]
      simp only [checkLoop]
      rw [if_pos hcond, ih hnd.2]
      simp only [List.find?, hb]

theorem checkLoop_cases (w : World) (td : Option String) (thr : Nat) :
    ∀ m : List DomainEntry,
      checkLoop w td thr m = w ∨
      ∃ e ∈ m, checkLoop w td thr m =
        createGroupInWorld w e.tabIds e.domain
          (getColorFromFaviconWithFallback e.favicon e.domain) := by
  intro m
  induction m with
  | nil => exact Or.inl rfl
  | cons e rest ih =>
    simp only [checkLoop]
    split
    · rcases ih with h | ⟨e', he', h⟩
      · exact Or.inl h
      · exact Or.inr ⟨e', List.mem_cons_of_mem e he', h⟩
    · split
      · exact Or.inr ⟨e, List.mem_cons_self e rest, rfl⟩
      · rcases ih with h | ⟨e', he', h⟩
        · exact Or.inl h
        · exact Or.inr ⟨e', List.mem_cons_of_mem e he', h⟩

theorem effectiveThreshold_pos (s : Settings) : 0 < effectiveThreshold s := by
  rw [effectiveThreshold]
  cases s.autoGroupThreshold with
  | none => decide
  | some n =>
    by_cases h : n = 0
    · simp [h]
    · simp [h]
      exact Nat.pos_of_ne_zero h

def shopTab1 : ChromeTab :=
  { id := 11, url := "https://shop.example.com/a", title := "S1", favIconUrl := "",
    pinned := false, active := false, groupId := -1 }

def shopTab2 : ChromeTab :=
  { id := 12, url := "https://shop.example.com/b", title := "S2", favIconUrl := "",
    pinned := false, active := false, groupId := -1 }

def shopTab3 : ChromeTab :=
  { id := 13, url := "https://shop.example.com/c", title := "S3", favIconUrl := "",
    pinned := false, active := false, groupId := -1 }

def newsTab1 : ChromeTab :=
  { id := 14, url := "https://news.example.com/x", title := "N1", favIconUrl := "",
    pinned := false, active := false, groupId := -1 }

def newsTab2 : ChromeTab :=
  { id := 15, url := "https://news.example.com/y", title := "N2", favIconUrl := "",
    pinned := false, active := false, groupId := -1 }

def newsTab3 : ChromeTab :=
  { id := 16, url := "https://news.example.com/z", title := "N3", favIconUrl := "",
    pinned := false, active := false, groupId := -1 }

/-- Settings with auto-grouping enabled at threshold 3. -/
def autoSettings : Settings :=
  { DEFAULT_SETTINGS with autoGroupByDomain := true, autoGroupThreshold := some 3 }

def autoWorld : World :=
  { tabs := [shopTab1, shopTab2, shopTab3, newsTab1, newsTab2, newsTab3]
    chromeGroups := []
    nextGroupId := 50
    store := { DEFAULT_STORAGE_DATA with settings := autoSettings } }

/-- C5: `checkAutoGroupByDomain` creates at most one group per invocation;
with a parseable triggering URL it acts exactly on the bucket of the URL's
`www.`-stripped hostname, grouping that bucket (named after the origin,
hash-colored) iff auto-grouping is enabled and the bucket has reached the
threshold; on the concrete 3-tab `shop.example.com` example (with a second
origin also at threshold) exactly one group, named `"shop.example.com"`,
holding exactly the three shop tabs, is created. -/
theorem checkAutoGroup_spec (w : World) (turl : String) (p : URLParts)
    (hp : parseURL turl = some p) (hd : stripWww p.hostname ≠ "") :
    (∀ u : Option String,
      (checkAutoGroupByDomain w u).chromeGroups.length ≤ w.chromeGroups.length + 1) ∧
    checkAutoGroupByDomain w (some turl) =
      (if w.store.settings.autoGroupByDomain = true ∧
          effectiveThreshold w.store.settings ≤
            (domainBucket (queryUngrouped w) true (stripWww p.hostname)).length then
        createGroupInWorld w
          (domainBucket (queryUngrouped w) true (stripWww p.hostname))
          (stripWww p.hostname) (getColorFromDomainHash (stripWww p.hostname))
      else w) ∧
    (checkAutoGroupByDomain autoWorld (some "https://shop.example.com/a")).chromeGroups.map
      (fun g => (g.id, g.title)) = [((50 : Int), "shop.example.com")] ∧
    (checkAutoGroupByDomain autoWorld (some "https://shop.example.com/a")).tabs.map
      ChromeTab.groupId = [50, 50, 50, -1, -1, -1] := by
  refine ⟨?_, ?_, by decide, by decide⟩
  · intro u
    simp only [checkAutoGroupByDomain]
    split
    · exact Nat.le_succ _
    · rcases checkLoop_cases w _ _ (buildDomainMap (queryUngrouped w) true) with h | ⟨e, _, h⟩
      · rw [h]; exact Nat.le_succ _
      · rw [h, createGroupInWorld_len]
  · simp only [checkAutoGroupByDomain, hp]
    cases hb : w.store.settings.autoGroupByDomain with
    | false => simp
    | true =>
      simp only [Bool.not_true, Bool.false_eq_true, if_false, true_and]
      rw [checkLoop_target w _ (stripWww p.hostname) hd _
        (buildDomainMap_nodup (queryUngrouped w) true)]
      cases hf : (buildDomainMap (queryUngrouped w) true).find?
          (fun e => e.domain == stripWww p.hostname) with
      | none =>
        have hbjk : domainBucket (queryUngrouped w) true (stripWww p.hostname) = [] := by
          rw [← buildDomainMap_bucketIds, bucketIdsAt, hf]
        rw [hbjk]
        rw [if_neg ?_]
        intro hle
        simp only [List.length_nil, Nat.le_zero] at hle
        exact absurd hle (Nat.pos_iff_ne_zero.mp (effectiveThreshold_pos w.store.settings))
      | some e =>
        have hpe := @List.find?_some _ (fun e => e.domain == stripWww p.hostname) e _ hf
        have hedom : e.domain = stripWww p.hostname := beq_iff_eq.mp hpe
        have hmem := List.mem_of_find?_eq_some hf
        have hids : e.tabIds = domainBucket (queryUngrouped w) true (stripWww p.hostname) := by
          rw [← hedom, ← buildDomainMap_bucketIds]
          exact (bucketIdsAt_of_mem _ (buildDomainMap_nodup _ _) e hmem).symm
        dsimp only
        rw [hedom, hids]
        rfl

theorem checkAutoGroup_spec_witness :
    (checkAutoGroupByDomain autoWorld (some "https://shop.example.com/a")).chromeGroups.length ≤
      autoWorld.chromeGroups.length + 1 :=
  (checkAutoGroup_spec autoWorld "https://shop.example.com/a"
    { protocol := "https:", host := "shop.example.com", hostname := "shop.example.com",
      pathname := "/a", search := "" } (by decide) (by decide)).1
    (some "https://shop.example.com/a")

def sysTab1 : ChromeTab :=
  { id := 1, url := "chrome://settings", title := "Settings", favIconUrl := "",
    pinned := false, active := false, groupId := -1 }

def sysTab2 : ChromeTab :=
  { id := 2, url := "chrome://settings", title := "Settings 2", favIconUrl := "",
    pinned := false, active := false, groupId := -1 }

def sysWorld : World :=
  { tabs := [sysTab1, sysTab2], chromeGroups := [], nextGroupId := 10,
    store := DEFAULT_STORAGE_DATA }

/-- C6 counterexample: `autoGroupByDomain` (the explicit sweep) has *no*
system-scheme exclusion — two ungrouped `chrome://settings` tabs are
bucketed under hostname `"settings"` (the platform URL parser accepts
`chrome://` URLs) and placed into a created group. -/
theorem clustering_system_counterexample :
    (autoGroupByDomain sysWorld).2 = 1 ∧
    (autoGroupByDomain sysWorld).1.chromeGroups.map (fun g => g.title) = ["settings"] ∧
    (autoGroupByDomain sysWorld).1.tabs.map ChromeTab.groupId = [10, 10] := by
  refine ⟨rfl, by decide, by decide⟩

/-- C6 (amended): only `checkAutoGroupByDomain` excludes system-scheme
tabs: there they appear in no bucket and survive every invocation with
their grouping untouched.  `autoGroupByDomain` skips only url-less,
id-less or unparseable tabs and does bucket system-scheme pages (see the
counterexample). -/
theorem checkAutoGroup_system_excluded (w : World) (u : Option String)
    (hnd : (w.tabs.map ChromeTab.id).Nodup) (t : ChromeTab) (ht : t ∈ w.tabs)
    (hsys : jsStartsWith t.url "chrome://" = true ∨
      jsStartsWith t.url "chrome-extension://" = true) :
    (∀ e ∈ buildDomainMap (queryUngrouped w) true, t.id ∉ e.tabIds) ∧
    t ∈ (checkAutoGroupByDomain w u).tabs := by
  have idInj : ∀ a ∈ w.tabs, ∀ b ∈ w.tabs, ChromeTab.id a = ChromeTab.id b → a = b :=
    fun a ha b hb h => List.inj_on_of_nodup_map hnd ha hb h
  have hck : clusterKey true t = none := by
    rw [clusterKey]
    by_cases h0 : (t.url = "" || t.id = 0) = true
    · rw [if_pos h0]
    · rw [if_neg h0]
      have hsys' : (true && (jsStartsWith t.url "chrome://" ||
          jsStartsWith t.url "chrome-extension://")) = true := by
        rcases hsys with h | h <;> simp [h]
      rw [if_pos hsys']
  have hnotin : ∀ e ∈ buildDomainMap (queryUngrouped w) true, t.id ∉ e.tabIds := by
    intro e he hin
    rw [← bucketIdsAt_of_mem _ (buildDomainMap_nodup _ _) e he,
      buildDomainMap_bucketIds] at hin
    obtain ⟨t', ht', hid⟩ := List.mem_map.mp hin
    rw [List.mem_filter] at ht'
    have ht'w : t' ∈ w.tabs := (List.mem_filter.mp ht'.1).1
    rw [idInj t' ht'w t ht hid] at ht'
    rw [hck] at ht'
    exact absurd (beq_iff_eq.mp ht'.2) (by simp)
  refine ⟨hnotin, ?_⟩
  simp only [checkAutoGroupByDomain]
  split
  · exact ht
  · rcases checkLoop_cases w _ _ (buildDomainMap (queryUngrouped w) true) with h | ⟨e, he, h⟩
    · rw [h]; exact ht
    · rw [h]
      simp only [createGroupInWorld]
      have hc : e.tabIds.contains t.id = false := by
        simp [hnotin e he]
      refine List.mem_map.mpr ⟨t, ht, ?_⟩
      rw [if_neg (by rw [hc]; exact Bool.false_ne_true)]

def mixedWorld : World :=
  { tabs := [sysTab1, shopTab1, shopTab2, shopTab3]
    chromeGroups := []
    nextGroupId := 60
    store := { DEFAULT_STORAGE_DATA with settings := autoSettings } }

theorem checkAutoGroup_system_excluded_witness :
    sysTab1 ∈ (checkAutoGroupByDomain mixedWorld (some "https://shop.example.com/a")).tabs :=
  (checkAutoGroup_system_excluded mixedWorld (some "https://shop.example.com/a")
    (by decide) sysTab1 (by decide) (Or.inl (by decide))).2

/- ------------------------------------------------------------------
C8 — suspension.
------------------------------------------------------------------ -/

theorem find?_id_update (l : List ChromeTab) (i : Nat) (u : String) (t : ChromeTab)
    (h : l.find? (fun tb => tb.id = i) = some t) :
    (l.map (fun tb => if tb.id = i then { tb with url := u } else tb)).find?
      (fun tb => tb.id = i) = some { t with url := u } := by
  induction l with
  | nil => simp at h
  | cons x rest ih =>
    rw [List.map_cons]
    by_cases hx : x.id = i
    · have hd : decide (x.id = i) = true := decide_eq_true hx
      rw [List.find?_cons, hd] at h
      have hxt : x = t := Option.some.inj h
      subst hxt
      rw [if_pos hx, List.find?_cons]
      have : decide (({ x with url := u } : ChromeTab).id = i) = true := decide_eq_true hx
      rw [this]
    · have hd : decide (x.id = i) = false := decide_eq_false hx
      rw [List.find?_cons, hd] at h
      rw [if_neg hx, List.find?_cons, hd]
      exact ih h

theorem find?_id_update_frame (l : List ChromeTab) (i j : Nat) (u : String)
    (hne : j ≠ i) :
    (l.map (fun tb => if tb.id = j then { tb with url := u } else tb)).find?
      (fun tb => tb.id = i) = l.find? (fun tb => tb.id = i) := by
  induction l with
  | nil => rfl
  | cons x rest ih =>
    rw [List.map_cons, List.find?_cons, List.find?_cons]
    by_cases hj : x.id = j
    · have hxi : ¬ x.id = i := fun hi => hne (hj.symm.trans hi)
      rw [if_pos hj]
      have h1 : decide (({ x with url := u } : ChromeTab).id = i) = false :=
        decide_eq_false hxi
      simp only [h1, decide_eq_false hxi]
      exact ih
    · rw [if_neg hj]
      cases hd : decide (x.id = i)
      · simp only [hd]
        exact ih
      · simp only [hd]

theorem find?_set_hit {α : Type} (k : Nat) (v : α) :
    ∀ m : List (Nat × α), m.any (fun kv => kv.1 = k) = true →
      (m.map (fun kv => if kv.1 = k then (k, v) else kv)).find?
        (fun kv => kv.1 = k) = some (k, v) := by
  intro m
  induction m with
  | nil => intro h; simp at h
  | cons e rest ih =>
    intro h
    rw [List.map_cons]
    by_cases he : e.1 = k
    · rw [if_pos he, List.find?_cons]
      have : decide (((k, v) : Nat × α).1 = k) = true := decide_eq_true rfl
      rw [this]
    · rw [if_neg he, List.find?_cons, decide_eq_false he]
      rw [List.any_cons, decide_eq_false he, Bool.false_or] at h
      exact ih h

theorem find?_fresh {α : Type} (k : Nat) (v : α) :
    ∀ m : List (Nat × α), m.any (fun kv => kv.1 = k) = false →
      (m ++ [(k, v)]).find? (fun kv => kv.1 = k) = some (k, v) := by
  intro m
  induction m with
  | nil =>
    intro _
    rw [List.nil_append, List.find?_cons]
    have : decide (((k, v) : Nat × α).1 = k) = true := decide_eq_true rfl
    rw [this]
  | cons e rest ih =>
    intro h
    rw [List.any_cons] at h
    have he : decide (e.1 = k) = false := by
      cases hd : decide (e.1 = k)
      · rfl
      · rw [hd, Bool.true_or] at h
        exact absurd h (by decide)
    rw [List.cons_append, List.find?_cons]
    simp only [he]
    rw [he, Bool.false_or] at h
    exact ih h

theorem mapGet_mapSet_self {α : Type} (m : List (Nat × α)) (k : Nat) (v : α) :
    mapGet (mapSet m k v) k = some v := by
  rw [mapSet]
  by_cases h : m.any (fun kv => kv.1 = k) = true
  · rw [if_pos h, mapGet, find?_set_hit k v m h]
    rfl
  · have h' : m.any (fun kv => kv.1 = k) = false := by
      cases hval : m.any (fun kv => kv.1 = k)
      · rfl
      · exact absurd hval h
    rw [if_neg h, mapGet, find?_fresh k v m h']
    rfl

theorem find?_set_other {α : Type} (k k' : Nat) (v : α) (hne : k' ≠ k) :
    ∀ m : List (Nat × α),
      (m.map (fun kv => if kv.1 = k then (k, v) else kv)).find?
        (fun kv => kv.1 = k') = m.find? (fun kv => kv.1 = k') := by
  intro m
  induction m with
  | nil => rfl
  | cons e rest ih =>
    rw [List.map_cons, List.find?_cons, List.find?_cons]
    by_cases he : e.1 = k
    · rw [if_pos he]
      have h1 : decide (((k, v) : Nat × α).1 = k') = false :=
        decide_eq_false (fun hk => hne hk.symm)
      have h2 : decide (e.1 = k') = false :=
        decide_eq_false (fun hk => hne (he ▸ hk : (k : Nat) = k').symm)
      simp only [h1, h2]
      exact ih
    · rw [if_neg he]
      cases hd : decide (e.1 = k')
      · simp only [hd]
        exact ih
      · simp only [hd]

theorem find?_append_single_other {α : Type} (k k' : Nat) (v : α) (hne : k' ≠ k) :
    ∀ m : List (Nat × α),
      (m ++ [(k, v)]).find? (fun kv => kv.1 = k') = m.find? (fun kv => kv.1 = k') := by
  intro m
  induction m with
  | nil =>
    rw [List.nil_append, List.find?_cons]
    have h1 : decide (((k, v) : Nat × α).1 = k') = false :=
      decide_eq_false (fun hk => hne hk.symm)
    simp only [h1]
  | cons e rest ih =>
    rw [List.cons_append, List.find?_cons, List.find?_cons]
    cases hd : decide (e.1 = k')
    · simp only [hd]
      exact ih
    · simp only [hd]

theorem mapGet_mapSet_other {α : Type} (m : List (Nat × α)) (k k' : Nat) (v : α)
    (hne : k' ≠ k) : mapGet (mapSet m k v) k' = mapGet m k' := by
  rw [mapSet]
  by_cases h : m.any (fun kv => kv.1 = k) = true
  · rw [if_pos h, mapGet, mapGet, find?_set_other k k' v hne m]
  · rw [if_neg h, mapGet, mapGet, find?_append_single_other k k' v hne m]

theorem mapGet_mapDelete_self {α : Type} (m : List (Nat × α)) (k : Nat) :
    mapGet (mapDelete m k) k = none := by
  rw [mapDelete, mapGet]
  induction m with
  | nil => rfl
  | cons e rest ih =>
    by_cases he : e.1 = k
    · simp only [List.filter_cons]
      rw [if_neg (by simp [he])]
      exact ih
    · simp only [List.filter_cons]
      rw [if_pos (by simp [he])]
      rw [List.find?_cons]
      simp only [decide_eq_false he]
      exact ih

theorem any_id_of_find? (l : List ChromeTab) (i : Nat) (t : ChromeTab)
    (h : l.find? (fun tb => tb.id = i) = some t) :
    l.any (fun tb => tb.id = i) = true :=
  List.any_eq_true.mpr ⟨t, List.mem_of_find?_eq_some h,
    @List.find?_some _ (fun tb => decide (tb.id = i)) t l h⟩

theorem suspendTab_frame_pinned (w : World) (susp : List (Nat × SuspInfo)) (j i : Nat)
    (t : ChromeTab) (hfind : w.tabs.find? (fun tb => tb.id = i) = some t)
    (hpin : t.pinned = true) :
    (suspendTab w susp j).1.tabs.find? (fun tb => tb.id = i) = some t ∧
    mapGet (suspendTab w susp j).2 i = mapGet susp i := by
  rw [suspendTab]
  cases hj : w.tabs.find? (fun tb => tb.id = j) with
  | none => exact ⟨hfind, rfl⟩
  | some tj =>
    dsimp only
    by_cases hs : suspendScreened tj = true
    · rw [if_pos hs]
      exact ⟨hfind, rfl⟩
    · rw [if_neg hs]
      by_cases hw : whitelistHit w.store.settings tj.url = true
      · rw [if_pos hw]
        exact ⟨hfind, rfl⟩
      · rw [if_neg hw]
        have hji : j ≠ i := by
          intro he
          subst he
          rw [hfind] at hj
          have htj : tj = t := (Option.some.inj hj).symm
          refine hs ?_
          rw [htj, suspendScreened, hpin]
          rfl
        refine ⟨?_, mapGet_mapSet_other susp j i _ (fun he => hji he.symm)⟩
        show (w.tabs.map _).find? (fun tb => tb.id = i) = some t
        rw [find?_id_update_frame w.tabs i j _ hji]
        exact hfind

theorem idleStep_frame_pinned (timeoutMs now : Nat)
    (acc : World × List (Nat × SuspInfo) × List (Nat × Nat)) (x : ChromeTab)
    (i : Nat) (t : ChromeTab)
    (hfind : acc.1.tabs.find? (fun tb => tb.id = i) = some t)
    (hpin : t.pinned = true) :
    (idleStep timeoutMs now acc x).1.tabs.find? (fun tb => tb.id = i) = some t ∧
    mapGet (idleStep timeoutMs now acc x).2.1 i = mapGet acc.2.1 i := by
  obtain ⟨w, susp, act⟩ := acc
  rw [idleStep]
  dsimp only
  by_cases h0 : x.id = 0
  · rw [if_pos h0]
    exact ⟨hfind, rfl⟩
  · rw [if_neg h0]
    cases hla : mapGet act x.id with
    | none => exact ⟨hfind, rfl⟩
    | some lastActive =>
      dsimp only
      by_cases hidle : now - lastActive > timeoutMs
      · rw [if_pos hidle]
        exact suspendTab_frame_pinned w susp x.id i t hfind hpin
      · rw [if_neg hidle]
        exact ⟨hfind, rfl⟩

theorem idleFold_frame_pinned (timeoutMs now : Nat) :
    ∀ (ts : List ChromeTab) (acc : World × List (Nat × SuspInfo) × List (Nat × Nat))
      (i : Nat) (t : ChromeTab),
      acc.1.tabs.find? (fun tb => tb.id = i) = some t → t.pinned = true →
      ((ts.foldl (idleStep timeoutMs now) acc).1.tabs.find? (fun tb => tb.id = i) = some t ∧
       mapGet ((ts.foldl (idleStep timeoutMs now) acc)).2.1 i = mapGet acc.2.1 i) := by
  intro ts
  induction ts with
  | nil =>
    intro acc i t h _
    exact ⟨h, rfl⟩
  | cons x rest ih =>
    intro acc i t h hp
    rw [List.foldl_cons]
    have hstep := idleStep_frame_pinned timeoutMs now acc x i t h hp
    have hrest := ih (idleStep timeoutMs now acc x) i t hstep.1 hp
    exact ⟨hrest.1, hrest.2.trans hstep.2⟩

/-- C8: `suspendTab` is a silent no-op (state returned unchanged — no
record, no provider update) for pinned, active, url-less, system-scheme,
already-placeholder or whitelist-matching tabs; consequently `sweepIdle`
(`checkIdleTabs`) never suspends a pinned tab regardless of idle duration
(the tab — including its URL — and its absent suspension record are left
exactly as they were); and for every eligible tab, `unsuspendTab` after
`suspendTab` restores the tab to exactly its original state (in
particular its original URL) and removes the suspension record. -/
theorem suspension_spec :
    (∀ (w : World) (susp : List (Nat × SuspInfo)) (tabId : Nat) (t : ChromeTab),
      w.tabs.find? (fun tb => tb.id = tabId) = some t →
      (suspendScreened t = true ∨ whitelistHit w.store.settings t.url = true) →
      suspendTab w susp tabId = (w, susp)) ∧
    (∀ (w : World) (susp : List (Nat × SuspInfo)) (act : List (Nat × Nat))
      (now i : Nat) (t : ChromeTab),
      w.tabs.find? (fun tb => tb.id = i) = some t → t.pinned = true →
      ((checkIdleTabs w susp act now).1.tabs.find? (fun tb => tb.id = i) = some t ∧
       mapGet (checkIdleTabs w susp act now).2.1 i = mapGet susp i)) ∧
    (∀ (w : World) (susp : List (Nat × SuspInfo)) (tabId : Nat) (t : ChromeTab),
      w.tabs.find? (fun tb => tb.id = tabId) = some t →
      suspendScreened t = false → whitelistHit w.store.settings t.url = false →
      ((unsuspendTab (suspendTab w susp tabId).1 (suspendTab w susp tabId).2
          tabId).1.tabs.find? (fun tb => tb.id = tabId) = some t ∧
       mapGet (unsuspendTab (suspendTab w susp tabId).1 (suspendTab w susp tabId).2
          tabId).2 tabId = none)) := by
  refine ⟨?_, ?_, ?_⟩
  · intro w susp tabId t hfind hcond
    rw [suspendTab, hfind]
    dsimp only
    rcases hcond with hs | hw
    · rw [if_pos hs]
    · by_cases hs : suspendScreened t = true
      · rw [if_pos hs]
      · rw [if_neg hs, if_pos hw]
  · intro w susp act now i t hfind hpin
    rw [checkIdleTabs]
    dsimp only
    by_cases ht0 : w.store.settings.suspensionTimeout = 0
    · rw [if_pos ht0]
      exact ⟨hfind, rfl⟩
    · rw [if_neg ht0]
      exact idleFold_frame_pinned _ now w.tabs (w, susp, act) i t hfind hpin
  · intro w susp tabId t hfind hscr hwl
    have hsusp : suspendTab w susp tabId =
        (updateTabUrl w tabId
          (suspendedUrlFor t.url (jsOr t.title "Untitled") t.favIconUrl),
         mapSet susp tabId
          { originalUrl := t.url, title := jsOr t.title "Untitled",
            favicon := t.favIconUrl }) := by
      rw [suspendTab, hfind]
      dsimp only
      rw [if_neg (by rw [hscr]; exact Bool.false_ne_true),
        if_neg (by rw [hwl]; exact Bool.false_ne_true)]
    rw [hsusp]
    have hget := mapGet_mapSet_self susp tabId
      ({ originalUrl := t.url, title := jsOr t.title "Untitled",
         favicon := t.favIconUrl } : SuspInfo)
    rw [unsuspendTab, hget]
    dsimp only
    have hfind1 : (updateTabUrl w tabId
        (suspendedUrlFor t.url (jsOr t.title "Untitled") t.favIconUrl)).tabs.find?
          (fun tb => tb.id = tabId) =
        some { t with url :=
          suspendedUrlFor t.url (jsOr t.title "Untitled") t.favIconUrl } :=
      find?_id_update w.tabs tabId _ t hfind
    have hany : (updateTabUrl w tabId
        (suspendedUrlFor t.url (jsOr t.title "Untitled") t.favIconUrl)).tabs.any
          (fun tb => tb.id = tabId) = true :=
      any_id_of_find? _ tabId _ hfind1
    rw [if_pos hany]
    refine ⟨?_, mapGet_mapDelete_self _ tabId⟩
    have h2 := find?_id_update
      ((updateTabUrl w tabId
        (suspendedUrlFor t.url (jsOr t.title "Untitled") t.favIconUrl)).tabs)
      tabId t.url
      ({ t with url := suspendedUrlFor t.url (jsOr t.title "Untitled") t.favIconUrl })
      hfind1
    exact h2

def idleTab : ChromeTab :=
  { id := 5, url := "https://idle.example.org/page", title := "Idle", favIconUrl := "",
    pinned := false, active := false, groupId := -1 }

def pinnedTab : ChromeTab :=
  { id := 6, url := "https://pin.example.org/", title := "Pin", favIconUrl := "",
    pinned := true, active := false, groupId := -1 }

def suspWorld : World :=
  { tabs := [idleTab, pinnedTab], chromeGroups := [], nextGroupId := 70,
    store := DEFAULT_STORAGE_DATA }

theorem suspension_spec_witness :
    suspendTab suspWorld [] 6 = (suspWorld, []) ∧
    ((unsuspendTab (suspendTab suspWorld [] 5).1 (suspendTab suspWorld [] 5).2
        5).1.tabs.find? (fun tb => tb.id = 5) = some idleTab ∧
      mapGet (unsuspendTab (suspendTab suspWorld [] 5).1 (suspendTab suspWorld [] 5).2
        5).2 5 = none) :=
  ⟨suspension_spec.1 suspWorld [] 6 pinnedTab (by decide) (Or.inl (by decide)),
   suspension_spec.2.2 suspWorld [] 5 idleTab (by decide) (by decide) (by decide)⟩

end TabFocus
